import Mathlib

/-!
# LiquidCrypstal: an HD44780 character LCD behind a shift register

A shallow embedding of `LiquidCrypstal.cpp`.  The driver object becomes the
record `State`; every member function becomes a function on `State`.  Calls to
the Arduino primitives `pinMode`, `digitalWrite`, `delayMicroseconds` and
`delay` are appended, in program order, to the ghost field `State.trace`.

All `uint8_t` quantities are natural numbers below 256; wherever the C code
stores a wider `int` or `unsigned long` result into a `uint8_t`, the embedding
reduces it modulo 256 at that place.
-/

set_option linter.unusedVariables false

namespace Driver

/-! ## Constants -/

/-- Arduino logic level `HIGH`. -/
def HIGH : Nat := 0x1
/-- Arduino logic level `LOW`. -/
def LOW : Nat := 0x0

/-- Modelled from the spec: the header `LiquidCrypstal.h` with the `LCD_*`
constants is missing; the clear-display opcode is the `0x01` the spec's
initialisation scenario names. -/
def LCD_CLEARDISPLAY : Nat := 0x01
/-- Modelled from the spec: header missing; HD44780 return-home opcode. -/
def LCD_RETURNHOME : Nat := 0x02
/-- Modelled from the spec: header missing; HD44780 entry-mode-set opcode. -/
def LCD_ENTRYMODESET : Nat := 0x04
/-- Modelled from the spec: header missing; HD44780 display-control opcode. -/
def LCD_DISPLAYCONTROL : Nat := 0x08
/-- Modelled from the spec: header missing; HD44780 cursor/display-shift opcode. -/
def LCD_CURSORSHIFT : Nat := 0x10
/-- Modelled from the spec: header missing; HD44780 function-set opcode. -/
def LCD_FUNCTIONSET : Nat := 0x20
/-- Modelled from the spec: header missing; HD44780 set-CGRAM-address opcode. -/
def LCD_SETCGRAMADDR : Nat := 0x40
/-- Modelled from the spec: header missing; HD44780 set-DDRAM-address opcode. -/
def LCD_SETDDRAMADDR : Nat := 0x80

/-- Modelled from the spec: header missing; entry-mode flag, right-to-left. -/
def LCD_ENTRYRIGHT : Nat := 0x00
/-- Modelled from the spec: header missing; entry-mode flag, left-to-right. -/
def LCD_ENTRYLEFT : Nat := 0x02
/-- Modelled from the spec: header missing; entry-mode flag, autoscroll. -/
def LCD_ENTRYSHIFTINCREMENT : Nat := 0x01
/-- Modelled from the spec: header missing; entry-mode flag, no autoscroll. -/
def LCD_ENTRYSHIFTDECREMENT : Nat := 0x00

/-- Modelled from the spec: header missing; display-control flag, display on. -/
def LCD_DISPLAYON : Nat := 0x04
/-- Modelled from the spec: header missing; display-control flag, display off. -/
def LCD_DISPLAYOFF : Nat := 0x00
/-- Modelled from the spec: header missing; display-control flag, cursor on. -/
def LCD_CURSORON : Nat := 0x02
/-- Modelled from the spec: header missing; display-control flag, cursor off. -/
def LCD_CURSOROFF : Nat := 0x00
/-- Modelled from the spec: header missing; display-control flag, blink on. -/
def LCD_BLINKON : Nat := 0x01
/-- Modelled from the spec: header missing; display-control flag, blink off. -/
def LCD_BLINKOFF : Nat := 0x00

/-- Modelled from the spec: header missing; shift flag, move the display. -/
def LCD_DISPLAYMOVE : Nat := 0x08
/-- Modelled from the spec: header missing; shift flag, move the cursor. -/
def LCD_CURSORMOVE : Nat := 0x00
/-- Modelled from the spec: header missing; shift flag, to the right. -/
def LCD_MOVERIGHT : Nat := 0x04
/-- Modelled from the spec: header missing; shift flag, to the left. -/
def LCD_MOVELEFT : Nat := 0x00

/-- Modelled from the spec: header missing; function flag, 8-bit interface. -/
def LCD_8BITMODE : Nat := 0x10
/-- Modelled from the spec: header missing; function flag, 4-bit interface. -/
def LCD_4BITMODE : Nat := 0x00
/-- Modelled from the spec: header missing; function flag, two lines. -/
def LCD_2LINE : Nat := 0x08
/-- Modelled from the spec: header missing; function flag, one line. -/
def LCD_1LINE : Nat := 0x00
/-- Modelled from the spec: header missing; function flag, 5x10 font. -/
def LCD_5x10DOTS : Nat := 0x04
/-- Modelled from the spec: header missing; function flag, 5x8 font. -/
def LCD_5x8DOTS : Nat := 0x00

/-! ## Wires and events -/

/-- The three microcontroller output lines of the link.  The constructor
stores one Arduino pin number for each (`_data_pin`, `_clock_pin`,
`_latch_pin`) and the code never uses a pin number for anything but naming
its wire, so an event names the wire by its role. -/
inductive Wire where
  | data
  | clock
  | latch
  deriving DecidableEq, Repr

/-- One call of an Arduino primitive. -/
inductive Event where
  | pinMode (w : Wire)
  | digitalWrite (w : Wire) (level : Nat)
  | delayMicroseconds (us : Nat)
  | delay (ms : Nat)
  deriving DecidableEq, Repr

/-! ## Pushes and delays -/

/-- The primitive calls of `shift_out` for shadow value `bit_map`: the loop
over `i = 0..7`, then the latch pulse, then the data line dropped low. -/
def shift_out_events (bit_map : Nat) : List Event :=
  (List.range 8).flatMap (fun i =>
    [ Event.digitalWrite Wire.data ((bit_map >>> (7 - i)) &&& 0x01),
      Event.delayMicroseconds 1,
      Event.digitalWrite Wire.clock HIGH,
      Event.delayMicroseconds 1,
      Event.digitalWrite Wire.clock LOW,
      Event.delayMicroseconds 1 ])
  ++ [ Event.digitalWrite Wire.latch HIGH,
       Event.delayMicroseconds 1,
       Event.digitalWrite Wire.latch LOW,
       Event.delayMicroseconds 1,
       Event.digitalWrite Wire.data LOW ]

/-- The driver's actions one level above the wires: a push of a byte through
`shift_out`, a wait, or a `pinMode` call. -/
inductive Act where
  | push (v : Nat)
  | delayMicroseconds (us : Nat)
  | delay (ms : Nat)
  | pinMode (w : Wire)
  deriving DecidableEq, Repr

/-- The primitive calls of one action. -/
def Act.events : Act → List Event
  | Act.push v => shift_out_events v
  | Act.delayMicroseconds us => [Event.delayMicroseconds us]
  | Act.delay ms => [Event.delay ms]
  | Act.pinMode w => [Event.pinMode w]

/-- The primitive calls of a sequence of actions. -/
def render (as : List Act) : List Event :=
  as.flatMap Act.events

/-- The bytes pushed by a sequence of actions. -/
def Act.pushes : List Act → List Nat
  | [] => []
  | Act.push v :: as => v :: Act.pushes as
  | _ :: as => Act.pushes as

/-- The member variables of a `LiquidCrypstal` object (leading underscores
dropped) and two ghost fields: `trace`, the primitive calls made so far, and
`acts`, the same history one level up (each run of `shift_out` as one push). -/
structure State where
  bit_map : Nat
  led_pin : Nat
  rs_pin : Nat
  enable_pin : Nat
  data_pins : Fin 4 → Nat
  displayfunction : Nat
  displaycontrol : Nat
  displaymode : Nat
  numlines : Nat
  currline : Nat
  trace : List Event
  acts : List Act

/-- Record primitive calls `es` on the trace and their summary `a` on the
action log. -/
def State.emit (s : State) (a : Act) (es : List Event) : State :=
  { s with trace := s.trace ++ es, acts := s.acts ++ [a] }

/-! ## Arduino bit macros on a `uint8_t` lvalue -/

/-- Arduino `bitSet(value, bit)`, that is `value |= (1UL << bit)`, stored back
into a `uint8_t`.  `1UL` is 32 bits wide. -/
def bitSet (value bit : Nat) : Nat :=
  (value ||| ((1 <<< bit) % 2 ^ 32)) % 256

/-- Arduino `bitClear(value, bit)`, that is `value &= ~(1UL << bit)`, stored
back into a `uint8_t`. -/
def bitClear (value bit : Nat) : Nat :=
  (value &&& (0xFFFFFFFF ^^^ ((1 <<< bit) % 2 ^ 32))) % 256

/-- Arduino `bitWrite(value, bit, bitvalue)`:
`bitvalue ? bitSet(value, bit) : bitClear(value, bit)`. -/
def bitWrite (value bit bitvalue : Nat) : Nat :=
  if bitvalue ≠ 0 then bitSet value bit else bitClear value bit

/-- The statement `x &= ~mask` on a `uint8_t` member `x`: the complement is
taken at `int` width and the result stored back into eight bits, so only the
low eight bits of the complement matter. -/
def andNot8 (x mask : Nat) : Nat :=
  (x &&& (0xFFFF ^^^ mask)) % 256

/-! ## Low level data pushing commands -/

/-- `LiquidCrypstal::shift_out`. -/
def shift_out (s : State) : State :=
  s.emit (Act.push s.bit_map) (shift_out_events s.bit_map)

/-- `delayMicroseconds(us)`. -/
def delayMicroseconds (s : State) (us : Nat) : State :=
  s.emit (Act.delayMicroseconds us) [Event.delayMicroseconds us]

/-- `delay(ms)`. -/
def delay (s : State) (ms : Nat) : State :=
  s.emit (Act.delay ms) [Event.delay ms]

/-- `LiquidCrypstal::pulseEnable`. -/
def pulseEnable (s : State) : State :=
  let s := { s with bit_map := bitWrite s.bit_map s.enable_pin LOW }
  let s := shift_out s
  let s := delayMicroseconds s 1
  let s := { s with bit_map := bitWrite s.bit_map s.enable_pin HIGH }
  let s := shift_out s
  let s := delayMicroseconds s 1
  let s := { s with bit_map := bitWrite s.bit_map s.enable_pin LOW }
  let s := shift_out s
  delayMicroseconds s 50

/-- The loop of `write4bits` on the shadow value: for `i = 0..3`,
`bitWrite(_bit_map, _data_pins[i], (value>>i)&0x01)`. -/
def setDataBits (data_pins : Fin 4 → Nat) (bit_map value : Nat) : Nat :=
  (List.finRange 4).foldl
    (fun m i => bitWrite m (data_pins i) ((value >>> i.val) &&& 0x01))
    bit_map

/-- `LiquidCrypstal::write4bits`. -/
def write4bits (s : State) (value : Nat) : State :=
  let s := { s with bit_map := setDataBits s.data_pins s.bit_map value }
  let s := shift_out s
  pulseEnable s

/-- `LiquidCrypstal::send`: write either command or data. -/
def send (s : State) (value mode : Nat) : State :=
  let s := { s with bit_map := bitWrite s.bit_map s.rs_pin mode }
  let s := shift_out s
  let s := write4bits s (value >>> 4)
  write4bits s value

/-! ## Mid level commands -/

/-- `LiquidCrypstal::command`. -/
def command (s : State) (value : Nat) : State :=
  send s value LOW

/-- `LiquidCrypstal::write`: the new state and the returned `size_t`. -/
def write (s : State) (value : Nat) : State × Nat :=
  (send s value HIGH, 1)

/-! ## High level commands -/

/-- `LiquidCrypstal::clear`. -/
def clear (s : State) : State :=
  let s := command s LCD_CLEARDISPLAY
  delay s 2

/-- `LiquidCrypstal::home`. -/
def home (s : State) : State :=
  let s := command s LCD_RETURNHOME
  delay s 2

/-- The local array `row_offsets` of `setCursor`. -/
def row_offsets : List Nat := [0x00, 0x40, 0x14, 0x54]

/-- The row `setCursor` indexes `row_offsets` with, after its clamping step.
`_numlines - 1` is computed at `int` width and stored into the `uint8_t`
parameter `row`. -/
def setCursorRow (s : State) (row : Nat) : Nat :=
  if row > s.numlines then (s.numlines + 256 - 1) % 256 else row

/-- `LiquidCrypstal::setCursor`.  Reading `row_offsets` past its four entries
is undefined behaviour in C: the embedding returns `none` there. -/
def setCursor (s : State) (col row : Nat) : Option State :=
  match row_offsets[setCursorRow s row]? with
  | none => none
  | some off => some (command s ((LCD_SETDDRAMADDR ||| (col + off)) % 256))

/-- `LiquidCrypstal::noDisplay`. -/
def noDisplay (s : State) : State :=
  let s := { s with displaycontrol := andNot8 s.displaycontrol LCD_DISPLAYON }
  command s ((LCD_DISPLAYCONTROL ||| s.displaycontrol) % 256)

/-- `LiquidCrypstal::display`. -/
def display (s : State) : State :=
  let s := { s with displaycontrol := (s.displaycontrol ||| LCD_DISPLAYON) % 256 }
  command s ((LCD_DISPLAYCONTROL ||| s.displaycontrol) % 256)

/-- `LiquidCrypstal::noCursor`. -/
def noCursor (s : State) : State :=
  let s := { s with displaycontrol := andNot8 s.displaycontrol LCD_CURSORON }
  command s ((LCD_DISPLAYCONTROL ||| s.displaycontrol) % 256)

/-- `LiquidCrypstal::cursor`. -/
def cursor (s : State) : State :=
  let s := { s with displaycontrol := (s.displaycontrol ||| LCD_CURSORON) % 256 }
  command s ((LCD_DISPLAYCONTROL ||| s.displaycontrol) % 256)

/-- `LiquidCrypstal::noBlink`. -/
def noBlink (s : State) : State :=
  let s := { s with displaycontrol := andNot8 s.displaycontrol LCD_BLINKON }
  command s ((LCD_DISPLAYCONTROL ||| s.displaycontrol) % 256)

/-- `LiquidCrypstal::blink`. -/
def blink (s : State) : State :=
  let s := { s with displaycontrol := (s.displaycontrol ||| LCD_BLINKON) % 256 }
  command s ((LCD_DISPLAYCONTROL ||| s.displaycontrol) % 256)

/-- `LiquidCrypstal::scrollDisplayLeft`. -/
def scrollDisplayLeft (s : State) : State :=
  command s ((LCD_CURSORSHIFT ||| LCD_DISPLAYMOVE ||| LCD_MOVELEFT) % 256)

/-- `LiquidCrypstal::scrollDisplayRight`. -/
def scrollDisplayRight (s : State) : State :=
  command s ((LCD_CURSORSHIFT ||| LCD_DISPLAYMOVE ||| LCD_MOVERIGHT) % 256)

/-- `LiquidCrypstal::leftToRight`. -/
def leftToRight (s : State) : State :=
  let s := { s with displaymode := (s.displaymode ||| LCD_ENTRYLEFT) % 256 }
  command s ((LCD_ENTRYMODESET ||| s.displaymode) % 256)

/-- `LiquidCrypstal::rightToLeft`. -/
def rightToLeft (s : State) : State :=
  let s := { s with displaymode := andNot8 s.displaymode LCD_ENTRYLEFT }
  command s ((LCD_ENTRYMODESET ||| s.displaymode) % 256)

/-- `LiquidCrypstal::autoscroll`. -/
def autoscroll (s : State) : State :=
  let s := { s with displaymode := (s.displaymode ||| LCD_ENTRYSHIFTINCREMENT) % 256 }
  command s ((LCD_ENTRYMODESET ||| s.displaymode) % 256)

/-- `LiquidCrypstal::noAutoscroll`. -/
def noAutoscroll (s : State) : State :=
  let s := { s with displaymode := andNot8 s.displaymode LCD_ENTRYSHIFTINCREMENT }
  command s ((LCD_ENTRYMODESET ||| s.displaymode) % 256)

/-- `LiquidCrypstal::createChar`; `charmap i` is the array element
`charmap[i]`. -/
def createChar (s : State) (location : Nat) (charmap : Nat → Nat) : State :=
  let location := location &&& 0x7
  let s := command s ((LCD_SETCGRAMADDR ||| (location <<< 3)) % 256)
  (List.range 8).foldl (fun st i => (write st (charmap i)).1) s

/-- `LiquidCrypstal::ledOn`. -/
def ledOn (s : State) : State :=
  let s := { s with bit_map := bitWrite s.bit_map s.led_pin 0x00 }
  shift_out s

/-- `LiquidCrypstal::ledOff`. -/
def ledOff (s : State) : State :=
  let s := { s with bit_map := bitWrite s.bit_map s.led_pin 0x01 }
  shift_out s

/-! ## Initialisation -/

/-- `LiquidCrypstal::begin`. -/
def begin (s : State) (cols lines dotsize : Nat) : State :=
  let s := if lines > 1 then
      { s with displayfunction := (s.displayfunction ||| LCD_2LINE) % 256 }
    else s
  let s := { s with numlines := lines, currline := 0 }
  let s := if dotsize ≠ 0 ∧ lines = 1 then
      { s with displayfunction := (s.displayfunction ||| LCD_5x10DOTS) % 256 }
    else s
  let s := delay s 100
  let s := { s with bit_map := 0x00 }
  let s := { s with bit_map := bitWrite s.bit_map s.rs_pin 1 }
  let s := { s with bit_map := bitWrite s.bit_map s.enable_pin 1 }
  let s := shift_out s
  let s := { s with bit_map := bitWrite s.bit_map s.rs_pin 0 }
  let s := { s with bit_map := bitWrite s.bit_map s.enable_pin 0 }
  let s := shift_out s
  let s :=
    if s.displayfunction &&& LCD_8BITMODE = 0 then
      let s := write4bits s 0x03
      let s := delay s 5
      let s := write4bits s 0x03
      let s := delay s 5
      let s := write4bits s 0x03
      let s := delay s 1
      write4bits s 0x02
    else
      let s := command s ((LCD_FUNCTIONSET ||| s.displayfunction) % 256)
      let s := delay s 5
      let s := command s ((LCD_FUNCTIONSET ||| s.displayfunction) % 256)
      let s := delay s 1
      command s ((LCD_FUNCTIONSET ||| s.displayfunction) % 256)
  let s := command s ((LCD_FUNCTIONSET ||| s.displayfunction) % 256)
  let s := { s with displaycontrol := (LCD_DISPLAYON ||| LCD_CURSOROFF ||| LCD_BLINKOFF) % 256 }
  let s := display s
  let s := clear s
  let s := { s with displaymode := (LCD_ENTRYLEFT ||| LCD_ENTRYSHIFTDECREMENT) % 256 }
  command s ((LCD_ENTRYMODESET ||| s.displaymode) % 256)

/-- `LiquidCrypstal::init`.  The call `begin(16, 1)` leaves `dotsize` to the
default argument declared in the missing header; it is taken to be
`LCD_5x8DOTS`, the value the spec's scenario `begin(16,1,0)` uses. -/
def init (s : State) (led rs enable d4 d5 d6 d7 : Nat) : State :=
  let s := { s with led_pin := led, rs_pin := rs, enable_pin := enable }
  let s := { s with data_pins := fun i =>
    if i.val = 0 then d4 else if i.val = 1 then d5 else if i.val = 2 then d6 else d7 }
  let s := { s with displayfunction := (LCD_4BITMODE ||| LCD_1LINE ||| LCD_5x8DOTS) % 256 }
  let s := { s with bit_map := 0x00 }
  begin s 16 1 LCD_5x8DOTS

/-- The object's storage before the constructor body runs.  Every member is
assigned (by the constructor, `init` or `begin`) before it is first read, so
the initial contents are immaterial; the trace starts empty. -/
def State.fresh : State :=
  { bit_map := 0, led_pin := 0, rs_pin := 0, enable_pin := 0, data_pins := fun _ => 0,
    displayfunction := 0, displaycontrol := 0, displaymode := 0,
    numlines := 0, currline := 0, trace := [], acts := [] }

/-- The constructor `LiquidCrypstal::LiquidCrypstal(data, clock, latch)`. -/
def LiquidCrypstal (data clock latch : Nat) : State :=
  let s := State.fresh
  let s := s.emit (Act.pinMode Wire.data) [Event.pinMode Wire.data]
  let s := s.emit (Act.pinMode Wire.clock) [Event.pinMode Wire.clock]
  let s := s.emit (Act.pinMode Wire.latch) [Event.pinMode Wire.latch]
  let s := { s with bit_map := 0x00 }
  init s 2 1 3 4 5 6 7

/-! ## Observing the link: the shift register on the three wires -/

/-- A wire carries a level: any non-zero value written is `HIGH`. -/
def level (v : Nat) : Nat := if v ≠ 0 then 1 else 0

/-- What an observer of the clock and latch wires sees. -/
inductive Edge where
  | clockRise (dataLevel : Nat)
  | clockFall
  | latchRise
  | latchFall
  deriving DecidableEq, Repr

/-- The serial-in/parallel-out shift register fed by the three wires: the
present wire levels, the eight bits shifted in so far, the log of clock and
latch edges, and the bytes copied to the parallel outputs, oldest first. -/
structure Link where
  data : Nat
  clock : Nat
  latch : Nat
  shiftReg : Nat
  edges : List Edge
  latched : List Nat
  deriving DecidableEq, Repr

/-- A link at rest: clock and latch low, nothing logged yet. -/
def Link.idle (data shiftReg : Nat) : Link :=
  { data := data, clock := 0, latch := 0, shiftReg := shiftReg, edges := [], latched := [] }

/-- The effect of one primitive call on the link.  A rising clock edge shifts
the data level in at the low end; a rising latch edge copies the eight bits
to the outputs. -/
def Link.step (l : Link) : Event → Link
  | Event.digitalWrite Wire.data v => { l with data := level v }
  | Event.digitalWrite Wire.clock v =>
      if l.clock = 0 ∧ level v = 1 then
        { l with clock := 1, shiftReg := (l.shiftReg * 2 + l.data) % 256,
                 edges := l.edges ++ [Edge.clockRise l.data] }
      else if l.clock = 1 ∧ level v = 0 then
        { l with clock := 0, edges := l.edges ++ [Edge.clockFall] }
      else l
  | Event.digitalWrite Wire.latch v =>
      if l.latch = 0 ∧ level v = 1 then
        { l with latch := 1, edges := l.edges ++ [Edge.latchRise],
                 latched := l.latched ++ [l.shiftReg] }
      else if l.latch = 1 ∧ level v = 0 then
        { l with latch := 0, edges := l.edges ++ [Edge.latchFall] }
      else l
  | _ => l

/-- Run the link over a trace. -/
def Link.run (l : Link) (es : List Event) : Link :=
  es.foldl Link.step l

/-- The bytes a trace latches onto the register outputs, in order, on a link
that starts at rest. -/
def pushed (es : List Event) : List Nat :=
  (Link.run (Link.idle 0 0) es).latched

/-- The primitive calls made between state `s` and the later state `t`. -/
def State.since (t s : State) : List Event :=
  t.trace.drop s.trace.length

/-- The actions logged between state `s` and the later state `t`. -/
def State.actsSince (t s : State) : List Act :=
  t.acts.drop s.acts.length

/-- State `t` continues the history of state `s`: both logs of `t` extend
those of `s`, by the same actions. -/
def Extends (s t : State) : Prop :=
  ∃ as, t.acts = s.acts ++ as ∧ t.trace = s.trace ++ render as

/-! ## Observing the register outputs: what the LCD controller sees -/

/-- Bit `k` of a register output value, as 0 or 1. -/
def bitAt (p k : Nat) : Nat := (p >>> k) &&& 1

/-- The nibble on the four data lines of register output `p`: data line `i`
carries bit `i`. -/
def dataNibble (s : State) (p : Nat) : Nat :=
  bitAt p (s.data_pins 0) + 2 * bitAt p (s.data_pins 1)
    + 4 * bitAt p (s.data_pins 2) + 8 * bitAt p (s.data_pins 3)

/-- The output values present at each high-to-low transition of output bit
`enable`, when the outputs held `prev` before the first of the pushes. -/
def enableFalls (enable : Nat) : Nat → List Nat → List Nat
  | _, [] => []
  | prev, p :: ps =>
      if bitAt prev enable = 1 ∧ bitAt p enable = 0 then p :: enableFalls enable p ps
      else enableFalls enable p ps

/-- The pin map the constructor installs: `init(2, 1, 3, 4, 5, 6, 7)`. -/
def DefaultPinMap (s : State) : Prop :=
  s.led_pin = 2 ∧ s.rs_pin = 1 ∧ s.enable_pin = 3 ∧
  s.data_pins 0 = 4 ∧ s.data_pins 1 = 5 ∧ s.data_pins 2 = 6 ∧ s.data_pins 3 = 7

/-- The pin-map invariant of the data model: the seven indices are distinct
and within 0..7. -/
def PinMapOK (s : State) : Prop :=
  [s.led_pin, s.rs_pin, s.enable_pin,
   s.data_pins 0, s.data_pins 1, s.data_pins 2, s.data_pins 3].Nodup ∧
  ∀ p ∈ [s.led_pin, s.rs_pin, s.enable_pin,
          s.data_pins 0, s.data_pins 1, s.data_pins 2, s.data_pins 3], p < 8

/-- States reached by constructing the driver and then calling `begin` any
number of times with `uint8_t` arguments. -/
inductive BeginReachable : State → Prop where
  | construct (data clock latch : Nat) : BeginReachable (LiquidCrypstal data clock latch)
  | begin (s : State) (cols lines dotsize : Nat)
      (hc : cols < 256) (hl : lines < 256) (hd : dotsize < 256) :
      BeginReachable s → BeginReachable (begin s cols lines dotsize)

/-- The data levels sampled at the rising clock edges of an edge log. -/
def clockSamples : List Edge → List Nat
  | [] => []
  | Edge.clockRise d :: es => d :: clockSamples es
  | _ :: es => clockSamples es

/-- What the LCD controller latches: at each high-to-low transition of the
enable output, the register-select level and the nibble on the data lines. -/
def lcdNibbles (s : State) (prev : Nat) (ps : List Nat) : List (Nat × Nat) :=
  (enableFalls s.enable_pin prev ps).map (fun p => (bitAt p s.rs_pin, dataNibble s p))

/-- The 4-bit interface pairs the latched nibbles into bytes, high nibble
first; a byte keeps the register-select level of its first nibble. -/
def lcdBytes : List (Nat × Nat) → List (Nat × Nat)
  | (r, h) :: (_, l) :: rest => (r, (h <<< 4) ||| l) :: lcdBytes rest
  | _ => []

/-- The pin map and flags the constructor leaves behind, with shadow value
`bit_map` and empty logs: a concrete driver state for examples.  The
constructor itself leaves the shadow value `0x60`. -/
def State.sample (bit_map : Nat) : State :=
  { bit_map := bit_map, led_pin := 2, rs_pin := 1, enable_pin := 3,
    data_pins := fun i =>
      if i.val = 0 then 4 else if i.val = 1 then 5 else if i.val = 2 then 6 else 7,
    displayfunction := 0, displaycontrol := 4, displaymode := 2,
    numlines := 1, currline := 0, trace := [], acts := [] }

/-! ## The pushes and delays of the low-level operations, written out -/

/-- The three pushes and three waits of `pulseEnable` from shadow value `bm`
with the enable line on bit `en`. -/
def pulseEnableActs (en bm : Nat) : List Act :=
  [ Act.push (bitWrite bm en LOW), Act.delayMicroseconds 1,
    Act.push (bitWrite (bitWrite bm en LOW) en HIGH), Act.delayMicroseconds 1,
    Act.push (bitWrite (bitWrite (bitWrite bm en LOW) en HIGH) en LOW),
    Act.delayMicroseconds 50 ]

/-- The pushes and waits of `write4bits`. -/
def write4bitsActs (s : State) (value : Nat) : List Act :=
  Act.push (setDataBits s.data_pins s.bit_map value)
    :: pulseEnableActs s.enable_pin (setDataBits s.data_pins s.bit_map value)

/-- The pushes and waits of `send`. -/
def sendActs (s : State) (value mode : Nat) : List Act :=
  Act.push (bitWrite s.bit_map s.rs_pin mode)
    :: (write4bitsActs { s with bit_map := bitWrite s.bit_map s.rs_pin mode } (value >>> 4)
        ++ write4bitsActs
            (write4bits (shift_out { s with bit_map := bitWrite s.bit_map s.rs_pin mode })
              (value >>> 4))
            value)

/-- A sequence of `send` calls, each a byte with its mode. -/
def sendAll (s : State) (bs : List (Nat × Nat)) : State :=
  bs.foldl (fun st b => send st b.1 b.2) s

/-! ## The initialisation scenario of the spec, written out

With the default pin map the data lines are register outputs 4..7 and enable
is output 3.  During initialisation the LED, register-select and unmapped
outputs stay low, so a nibble `n` appears as the output byte `16 * n`, plus 8
while enable is high. -/

/-- Spec side: one nibble write, a push of the nibble and then the enable
pulse (low, 1 us, high, 1 us, low, 50 us). -/
def Spec.nibbleActs (n : Nat) : List Act :=
  [ Act.push (16 * n),
    Act.push (16 * n), Act.delayMicroseconds 1,
    Act.push (16 * n + 8), Act.delayMicroseconds 1,
    Act.push (16 * n), Act.delayMicroseconds 50 ]

/-- Spec side: one command byte `b`, a push with register-select low while the
data lines still hold the nibble `held` written last, then the high nibble,
then the low nibble. -/
def Spec.commandActs (held b : Nat) : List Act :=
  Act.push (16 * held) :: (Spec.nibbleActs (b / 16) ++ Spec.nibbleActs (b % 16))

/-- Spec side: the scenario `begin(16,1,0)` after construction. -/
def Spec.beginScenario : List Act :=
  [Act.delay 100, Act.push 0x0A, Act.push 0x00]
    ++ Spec.nibbleActs 0x3 ++ [Act.delay 5]
    ++ Spec.nibbleActs 0x3 ++ [Act.delay 5]
    ++ Spec.nibbleActs 0x3 ++ [Act.delay 1]
    ++ Spec.nibbleActs 0x2
    ++ Spec.commandActs 0x2 0x20
    ++ Spec.commandActs 0x0 0x0C
    ++ Spec.commandActs 0xC 0x01 ++ [Act.delay 2]
    ++ Spec.commandActs 0x1 0x06

/-! ## The public operations as calls -/

/-- A call of one public operation of the driver, with its arguments. -/
inductive Op where
  | begin (cols lines dotsize : Nat)
  | clear
  | home
  | setCursor (col row : Nat)
  | noDisplay
  | display
  | noCursor
  | cursor
  | noBlink
  | blink
  | scrollDisplayLeft
  | scrollDisplayRight
  | leftToRight
  | rightToLeft
  | autoscroll
  | noAutoscroll
  | createChar (location : Nat) (charmap : Nat → Nat)
  | command (value : Nat)
  | write (value : Nat)
  | ledOn
  | ledOff

/-- The state a call leaves; `none` where the call runs into undefined
behaviour (the out-of-bounds read of `setCursor`). -/
def Op.apply : Op → State → Option State
  | Op.begin cols lines dotsize, s => some (Driver.begin s cols lines dotsize)
  | Op.clear, s => some (Driver.clear s)
  | Op.home, s => some (Driver.home s)
  | Op.setCursor col row, s => Driver.setCursor s col row
  | Op.noDisplay, s => some (Driver.noDisplay s)
  | Op.display, s => some (Driver.display s)
  | Op.noCursor, s => some (Driver.noCursor s)
  | Op.cursor, s => some (Driver.cursor s)
  | Op.noBlink, s => some (Driver.noBlink s)
  | Op.blink, s => some (Driver.blink s)
  | Op.scrollDisplayLeft, s => some (Driver.scrollDisplayLeft s)
  | Op.scrollDisplayRight, s => some (Driver.scrollDisplayRight s)
  | Op.leftToRight, s => some (Driver.leftToRight s)
  | Op.rightToLeft, s => some (Driver.rightToLeft s)
  | Op.autoscroll, s => some (Driver.autoscroll s)
  | Op.noAutoscroll, s => some (Driver.noAutoscroll s)
  | Op.createChar location charmap, s => some (Driver.createChar s location charmap)
  | Op.command value, s => some (Driver.command s value)
  | Op.write value, s => some (Driver.write s value).1
  | Op.ledOn, s => some (Driver.ledOn s)
  | Op.ledOff, s => some (Driver.ledOff s)

/-- The arguments of a call are `uint8_t` values (and the glyph of
`createChar` is an array of eight of them). -/
def Op.bytes : Op → Prop
  | Op.begin cols lines dotsize => cols < 256 ∧ lines < 256 ∧ dotsize < 256
  | Op.setCursor col row => col < 256 ∧ row < 256
  | Op.createChar location charmap => location < 256 ∧ ∀ i, i < 8 → charmap i < 256
  | Op.command value => value < 256
  | Op.write value => value < 256
  | _ => True

/-- The calls that reach the display only through `send`: all but `begin`,
`ledOn` and `ledOff`. -/
def Op.viaSend : Op → Prop
  | Op.begin _ _ _ => False
  | Op.ledOn => False
  | Op.ledOff => False
  | _ => True

/-- States reached by constructing the driver and then calling any sequence
of public operations with `uint8_t` arguments. -/
inductive Reachable : State → Prop where
  | construct (data clock latch : Nat) : Reachable (LiquidCrypstal data clock latch)
  | step (op : Op) (s t : State) :
      Reachable s → op.bytes → op.apply s = some t → Reachable t

/-- State `t` continues the history of state `s` and ends in step with the
register: the last byte pushed since `s` is the 8-bit shadow value of `t`. -/
def EndsSynced (s t : State) : Prop :=
  ∃ as, t.acts = s.acts ++ as ∧ t.trace = s.trace ++ render as
    ∧ (Act.pushes as).getLast? = some t.bit_map ∧ t.bit_map < 256

/-- Register output `k` is one `send` never writes in state `s`: a bit of the
shadow byte that is neither register-select, nor enable, nor a data line. -/
def Untouched (k : Nat) (s : State) : Prop :=
  k < 8 ∧ s.rs_pin ≠ k ∧ s.enable_pin ≠ k ∧ ∀ i, s.data_pins i ≠ k

/-- State `t` continues the history of state `s` with bit `k` held: every
byte pushed since `s`, and the shadow value of `t`, has bit `k` as in the
shadow value of `s`. -/
def Keeps (k : Nat) (s t : State) : Prop :=
  ∃ as, t.acts = s.acts ++ as ∧ t.trace = s.trace ++ render as
    ∧ (∀ v ∈ Act.pushes as, v < 256 ∧ bitAt v k = bitAt s.bit_map k)
    ∧ bitAt t.bit_map k = bitAt s.bit_map k

/-! ## The parts of `begin` -/

/-- Lines 62 to 85 of `begin`: the flag updates, the 100 ms wait and the two
pushes that force the lines idle. -/
def beginPrologue (s : State) (lines dotsize : Nat) : State :=
  let s := if lines > 1 then
      { s with displayfunction := (s.displayfunction ||| LCD_2LINE) % 256 }
    else s
  let s := { s with numlines := lines, currline := 0 }
  let s := if dotsize ≠ 0 ∧ lines = 1 then
      { s with displayfunction := (s.displayfunction ||| LCD_5x10DOTS) % 256 }
    else s
  let s := delay s 100
  let s := { s with bit_map := 0x00 }
  let s := { s with bit_map := bitWrite s.bit_map s.rs_pin 1 }
  let s := { s with bit_map := bitWrite s.bit_map s.enable_pin 1 }
  let s := shift_out s
  let s := { s with bit_map := bitWrite s.bit_map s.rs_pin 0 }
  let s := { s with bit_map := bitWrite s.bit_map s.enable_pin 0 }
  shift_out s

/-- Lines 92 to 104 of `begin`, the 4-bit branch: nibble `0x03` three times
with waits of 5, 5 and 1 ms, then nibble `0x02`. -/
def beginNibbles (s : State) : State :=
  let s := write4bits s 0x03
  let s := delay s 5
  let s := write4bits s 0x03
  let s := delay s 5
  let s := write4bits s 0x03
  let s := delay s 1
  write4bits s 0x02

/-- Lines 110 to 118 of `begin`, the 8-bit branch: the full function-set
command three times. -/
def beginBytes (s : State) : State :=
  let s := command s ((LCD_FUNCTIONSET ||| s.displayfunction) % 256)
  let s := delay s 5
  let s := command s ((LCD_FUNCTIONSET ||| s.displayfunction) % 256)
  let s := delay s 1
  command s ((LCD_FUNCTIONSET ||| s.displayfunction) % 256)

/-- Lines 122 to 134 of `begin`: function set, display on, clear, entry
mode. -/
def beginEpilogue (s : State) : State :=
  let s := command s ((LCD_FUNCTIONSET ||| s.displayfunction) % 256)
  let s := { s with displaycontrol := (LCD_DISPLAYON ||| LCD_CURSOROFF ||| LCD_BLINKOFF) % 256 }
  let s := display s
  let s := clear s
  let s := { s with displaymode := (LCD_ENTRYLEFT ||| LCD_ENTRYSHIFTDECREMENT) % 256 }
  command s ((LCD_ENTRYMODESET ||| s.displaymode) % 256)

/-! ## Flag toggles -/

/-- The flag word `new` is `old` with the bits of `flag` all set (`b = true`)
or all cleared (`b = false`), every other bit unchanged. -/
def FlagSet (old new flag : Nat) (b : Bool) : Prop :=
  ∀ i, new.testBit i = if flag.testBit i then b else old.testBit i

/-- State `t` is state `s` after a display-control toggle of `flag`: the flag
is set or cleared in the display-control flags, the other flag words are
unchanged, and exactly one command `LCD_DISPLAYCONTROL | flags` is issued. -/
def ControlToggle (s t : State) (flag : Nat) (b : Bool) : Prop :=
  FlagSet s.displaycontrol t.displaycontrol flag b
    ∧ t.displaymode = s.displaymode
    ∧ t.displayfunction = s.displayfunction
    ∧ t = command { s with displaycontrol := t.displaycontrol }
          (LCD_DISPLAYCONTROL ||| t.displaycontrol)

/-- State `t` is state `s` after an entry-mode toggle of `flag`: the flag is
set or cleared in the entry-mode flags, the other flag words are unchanged,
and exactly one command `LCD_ENTRYMODESET | flags` is issued. -/
def EntryToggle (s t : State) (flag : Nat) (b : Bool) : Prop :=
  FlagSet s.displaymode t.displaymode flag b
    ∧ t.displaycontrol = s.displaycontrol
    ∧ t.displayfunction = s.displayfunction
    ∧ t = command { s with displaymode := t.displaymode }
          (LCD_ENTRYMODESET ||| t.displaymode)

/-! # Theorems -/

/-! ## Bit-level facts -/

theorem testBit_bitSet (v b i : Nat) :
    (bitSet v b).testBit i = (decide (i < 8) && (v.testBit i || decide (b = i))) := by
  unfold bitSet
  have h256 : (256 : Nat) = 2 ^ 8 := by norm_num
  rw [h256, Nat.testBit_mod_two_pow, Nat.testBit_or, Nat.shiftLeft_eq, Nat.one_mul,
    Nat.testBit_mod_two_pow, Nat.testBit_two_pow]
  by_cases h8 : i < 8
  · have : i < 32 := by omega
    simp [h8, this]
  · simp [h8]

theorem testBit_bitClear (v b i : Nat) :
    (bitClear v b).testBit i = (decide (i < 8) && (v.testBit i && !decide (b = i))) := by
  unfold bitClear
  have h256 : (256 : Nat) = 2 ^ 8 := by norm_num
  have hF : (0xFFFFFFFF : Nat) = 2 ^ 32 - 1 := by norm_num
  rw [h256, hF, Nat.testBit_mod_two_pow, Nat.testBit_and, Nat.testBit_xor, Nat.shiftLeft_eq,
    Nat.one_mul, Nat.testBit_mod_two_pow, Nat.testBit_two_pow, Nat.testBit_two_pow_sub_one]
  by_cases h8 : i < 8
  · have : i < 32 := by omega
    simp [h8, this]
  · simp [h8]

theorem testBit_bitWrite (v b x i : Nat) :
    (bitWrite v b x).testBit i
      = (decide (i < 8) && (if b = i then decide (x ≠ 0) else v.testBit i)) := by
  unfold bitWrite
  by_cases hx : x ≠ 0
  · rw [if_pos hx, testBit_bitSet]
    by_cases hb : b = i <;> simp [hb, hx]
  · rw [if_neg hx, testBit_bitClear]
    by_cases hb : b = i <;> simp [hb, hx]

theorem bitWrite_lt (v b x : Nat) : bitWrite v b x < 256 := by
  unfold bitWrite bitSet bitClear
  split <;> exact Nat.mod_lt _ (by norm_num)

theorem bitAt_eq_testBit (p k : Nat) : bitAt p k = if p.testBit k then 1 else 0 := by
  unfold bitAt Nat.testBit
  rw [Nat.and_one_is_mod, Nat.one_and_eq_mod_two]
  rcases Nat.mod_two_eq_zero_or_one (p >>> k) with h | h <;> simp [h]

theorem bitAt_eq_div (p k : Nat) : bitAt p k = p / 2 ^ k % 2 := by
  unfold bitAt
  rw [Nat.and_one_is_mod, Nat.shiftRight_eq_div_pow]

/-! ## The link -/

theorem Link.run_append (l : Link) (xs ys : List Event) :
    Link.run l (xs ++ ys) = Link.run (Link.run l xs) ys := by
  simp [Link.run, List.foldl_append]

theorem level_bit (b k : Nat) : level ((b >>> k) &&& 0x01) = (b >>> k) &&& 1 := by
  unfold level
  rw [Nat.and_one_is_mod]
  rcases Nat.mod_two_eq_zero_or_one (b >>> k) with h | h <;> simp [h]

theorem Link.run_clockBit (d la sr : Nat) (ed : List Edge) (lt : List Nat) (x : Nat) :
    Link.run { data := d, clock := 0, latch := la, shiftReg := sr, edges := ed, latched := lt }
      [ Event.digitalWrite Wire.data x, Event.delayMicroseconds 1,
        Event.digitalWrite Wire.clock HIGH, Event.delayMicroseconds 1,
        Event.digitalWrite Wire.clock LOW, Event.delayMicroseconds 1 ]
    = { data := level x, clock := 0, latch := la, shiftReg := (sr * 2 + level x) % 256,
        edges := ed ++ [Edge.clockRise (level x), Edge.clockFall], latched := lt } := by
  have h1 : level HIGH = 1 := rfl
  have h0 : level LOW = 0 := rfl
  simp [Link.run, Link.step, h1, h0]

theorem Link.run_latchPulse (d sr : Nat) (ed : List Edge) (lt : List Nat) :
    Link.run { data := d, clock := 0, latch := 0, shiftReg := sr, edges := ed, latched := lt }
      [ Event.digitalWrite Wire.latch HIGH, Event.delayMicroseconds 1,
        Event.digitalWrite Wire.latch LOW, Event.delayMicroseconds 1,
        Event.digitalWrite Wire.data LOW ]
    = { data := 0, clock := 0, latch := 0, shiftReg := sr,
        edges := ed ++ [Edge.latchRise, Edge.latchFall], latched := lt ++ [sr] } := by
  have h1 : level HIGH = 1 := rfl
  have h0 : level LOW = 0 := rfl
  simp [Link.run, Link.step, h1, h0]

theorem shift_out_events_eq (b : Nat) :
    shift_out_events b =
      [ Event.digitalWrite Wire.data ((b >>> 7) &&& 0x01), Event.delayMicroseconds 1,
        Event.digitalWrite Wire.clock HIGH, Event.delayMicroseconds 1,
        Event.digitalWrite Wire.clock LOW, Event.delayMicroseconds 1 ] ++
      ([ Event.digitalWrite Wire.data ((b >>> 6) &&& 0x01), Event.delayMicroseconds 1,
        Event.digitalWrite Wire.clock HIGH, Event.delayMicroseconds 1,
        Event.digitalWrite Wire.clock LOW, Event.delayMicroseconds 1 ] ++
      ([ Event.digitalWrite Wire.data ((b >>> 5) &&& 0x01), Event.delayMicroseconds 1,
        Event.digitalWrite Wire.clock HIGH, Event.delayMicroseconds 1,
        Event.digitalWrite Wire.clock LOW, Event.delayMicroseconds 1 ] ++
      ([ Event.digitalWrite Wire.data ((b >>> 4) &&& 0x01), Event.delayMicroseconds 1,
        Event.digitalWrite Wire.clock HIGH, Event.delayMicroseconds 1,
        Event.digitalWrite Wire.clock LOW, Event.delayMicroseconds 1 ] ++
      ([ Event.digitalWrite Wire.data ((b >>> 3) &&& 0x01), Event.delayMicroseconds 1,
        Event.digitalWrite Wire.clock HIGH, Event.delayMicroseconds 1,
        Event.digitalWrite Wire.clock LOW, Event.delayMicroseconds 1 ] ++
      ([ Event.digitalWrite Wire.data ((b >>> 2) &&& 0x01), Event.delayMicroseconds 1,
        Event.digitalWrite Wire.clock HIGH, Event.delayMicroseconds 1,
        Event.digitalWrite Wire.clock LOW, Event.delayMicroseconds 1 ] ++
      ([ Event.digitalWrite Wire.data ((b >>> 1) &&& 0x01), Event.delayMicroseconds 1,
        Event.digitalWrite Wire.clock HIGH, Event.delayMicroseconds 1,
        Event.digitalWrite Wire.clock LOW, Event.delayMicroseconds 1 ] ++
      ([ Event.digitalWrite Wire.data ((b >>> 0) &&& 0x01), Event.delayMicroseconds 1,
        Event.digitalWrite Wire.clock HIGH, Event.delayMicroseconds 1,
        Event.digitalWrite Wire.clock LOW, Event.delayMicroseconds 1 ] ++
      [ Event.digitalWrite Wire.latch HIGH, Event.delayMicroseconds 1,
        Event.digitalWrite Wire.latch LOW, Event.delayMicroseconds 1,
        Event.digitalWrite Wire.data LOW ]))))))) := rfl

theorem shiftStep (a c : Nat) : (a % 256 * 2 + c) % 256 = (a * 2 + c) % 256 := by omega

theorem bits8 (b : Nat) :
    (b / 128 % 2) * 128 + (b / 64 % 2) * 64 + (b / 32 % 2) * 32 + (b / 16 % 2) * 16
      + (b / 8 % 2) * 8 + (b / 4 % 2) * 4 + (b / 2 % 2) * 2 + b % 2 = b % 256 := by
  omega

theorem shiftIn8 (sr b : Nat) :
    ((((((((sr * 2 + b / 128 % 2) % 256 * 2 + b / 64 % 2) % 256 * 2
      + b / 32 % 2) % 256 * 2 + b / 16 % 2) % 256 * 2 + b / 8 % 2) % 256 * 2
      + b / 4 % 2) % 256 * 2 + b / 2 % 2) % 256 * 2 + b % 2) % 256
      = b % 256 := by
  simp only [shiftStep]
  have h := bits8 b
  omega

theorem Link.run_shift_out_events (l : Link) (b : Nat) (hc : l.clock = 0) (hl : l.latch = 0) :
    Link.run l (shift_out_events b) =
      { data := 0, clock := 0, latch := 0
        shiftReg := b % 256
        edges := l.edges ++
          [ Edge.clockRise ((b >>> 7) &&& 1), Edge.clockFall,
            Edge.clockRise ((b >>> 6) &&& 1), Edge.clockFall,
            Edge.clockRise ((b >>> 5) &&& 1), Edge.clockFall,
            Edge.clockRise ((b >>> 4) &&& 1), Edge.clockFall,
            Edge.clockRise ((b >>> 3) &&& 1), Edge.clockFall,
            Edge.clockRise ((b >>> 2) &&& 1), Edge.clockFall,
            Edge.clockRise ((b >>> 1) &&& 1), Edge.clockFall,
            Edge.clockRise ((b >>> 0) &&& 1), Edge.clockFall,
            Edge.latchRise, Edge.latchFall ]
        latched := l.latched ++ [b % 256] } := by
  obtain ⟨d, c, la, sr, ed, lt⟩ := l
  simp only at hc hl
  subst hc hl
  rw [shift_out_events_eq]
  simp only [Link.run_append, Link.run_clockBit, Link.run_latchPulse, level_bit]
  have e : ((((((((sr * 2 + ((b >>> 7) &&& 1)) % 256 * 2 + ((b >>> 6) &&& 1)) % 256 * 2
      + ((b >>> 5) &&& 1)) % 256 * 2 + ((b >>> 4) &&& 1)) % 256 * 2
      + ((b >>> 3) &&& 1)) % 256 * 2 + ((b >>> 2) &&& 1)) % 256 * 2
      + ((b >>> 1) &&& 1)) % 256 * 2 + ((b >>> 0) &&& 1)) % 256
      = b % 256 := by
    simp only [Nat.and_one_is_mod, Nat.shiftRight_eq_div_pow]
    norm_num
    exact shiftIn8 sr b
  simp only [e, List.append_assoc, List.cons_append, List.nil_append]

theorem Link.run_delay (l : Link) (ms : Nat) : Link.run l [Event.delay ms] = l := rfl

theorem Link.run_delayMicroseconds (l : Link) (us : Nat) :
    Link.run l [Event.delayMicroseconds us] = l := rfl

theorem Link.run_nil (l : Link) : Link.run l [] = l := rfl

theorem since_append (t s : State) (es : List Event) (h : t.trace = s.trace ++ es) :
    t.since s = es := by
  unfold State.since
  rw [h, List.drop_left]

theorem bitWrite_mod (v b x : Nat) : bitWrite v b x % 256 = bitWrite v b x :=
  Nat.mod_eq_of_lt (bitWrite_lt v b x)

/-! ## Pushes of the low-level operations -/

theorem setDataBits_eq (pins : Fin 4 → Nat) (bm v : Nat) :
    setDataBits pins bm v =
      bitWrite (bitWrite (bitWrite (bitWrite bm (pins 0) ((v >>> 0) &&& 1))
        (pins 1) ((v >>> 1) &&& 1)) (pins 2) ((v >>> 2) &&& 1)) (pins 3) ((v >>> 3) &&& 1) := rfl

theorem level_bitAt (v k : Nat) : level ((v >>> k) &&& 1) = bitAt v k := by
  rw [level_bit]; rfl

theorem bitAt_le_one (p k : Nat) : bitAt p k = 0 ∨ bitAt p k = 1 := by
  rw [bitAt_eq_div]; omega

theorem bitAt_bitWrite (v b x i : Nat) :
    bitAt (bitWrite v b x) i = if i < 8 then (if b = i then level x else bitAt v i) else 0 := by
  rw [bitAt_eq_testBit, testBit_bitWrite, bitAt_eq_testBit]
  unfold level
  by_cases h8 : i < 8 <;> by_cases hb : b = i <;> by_cases hx : x = 0 <;> simp [h8, hb, hx]

theorem render_cons (a : Act) (as : List Act) : render (a :: as) = a.events ++ render as := by
  simp [render]

theorem render_nil : render [] = [] := rfl

theorem render_append (xs ys : List Act) : render (xs ++ ys) = render xs ++ render ys := by
  simp [render]

theorem Link.run_render (as : List Act) :
    ∀ l : Link, l.clock = 0 → l.latch = 0 →
      (Link.run l (render as)).latched = l.latched ++ (Act.pushes as).map (fun v => v % 256)
      ∧ (Link.run l (render as)).clock = 0 ∧ (Link.run l (render as)).latch = 0 := by
  induction as with
  | nil => intro l hc hl; simp [render_nil, Link.run_nil, Act.pushes, hc, hl]
  | cons a as ih =>
    intro l hc hl
    rw [render_cons, Link.run_append]
    cases a with
    | push v =>
      simp only [Act.events]
      have hc2 : (Link.run l (shift_out_events v)).clock = 0 := by
        rw [Link.run_shift_out_events l v hc hl]
      have hl2 : (Link.run l (shift_out_events v)).latch = 0 := by
        rw [Link.run_shift_out_events l v hc hl]
      have hla : (Link.run l (shift_out_events v)).latched = l.latched ++ [v % 256] := by
        rw [Link.run_shift_out_events l v hc hl]
      obtain ⟨h1, h2, h3⟩ := ih _ hc2 hl2
      refine ⟨?_, h2, h3⟩
      rw [h1, hla]
      simp [Act.pushes]
    | delayMicroseconds us =>
      simp only [Act.events, Link.run_delayMicroseconds]
      simpa [Act.pushes] using ih l hc hl
    | delay ms =>
      simp only [Act.events, Link.run_delay]
      simpa [Act.pushes] using ih l hc hl
    | pinMode w =>
      have e : Link.run l [Event.pinMode w] = l := rfl
      simp only [Act.events, e]
      simpa [Act.pushes] using ih l hc hl

theorem pushed_render (as : List Act) (h : ∀ v ∈ Act.pushes as, v < 256) :
    pushed (render as) = Act.pushes as := by
  unfold pushed
  rw [(Link.run_render as (Link.idle 0 0) rfl rfl).1]
  simp only [Link.idle, List.nil_append]
  conv_rhs => rw [← List.map_id (Act.pushes as)]
  exact List.map_congr_left (fun v hv => Nat.mod_eq_of_lt (h v hv))

theorem pulseEnable_trace (s : State) :
    (pulseEnable s).trace = s.trace ++ render (pulseEnableActs s.enable_pin s.bit_map) := by
  simp [pulseEnable, shift_out, delayMicroseconds, State.emit, List.append_assoc,
    pulseEnableActs, render, Act.events]

theorem write4bits_trace (s : State) (v : Nat) :
    (write4bits s v).trace = s.trace ++ render (write4bitsActs s v) := by
  unfold write4bits
  simp only [pulseEnable_trace]
  simp [shift_out, State.emit, write4bitsActs, render_cons, Act.events, List.append_assoc]

theorem send_trace (s : State) (v mode : Nat) :
    (send s v mode).trace = s.trace ++ render (sendActs s v mode) := by
  unfold send
  simp only [write4bits_trace]
  simp [shift_out, State.emit, sendActs, render_cons, render_append, Act.events,
    List.append_assoc, write4bitsActs]

theorem PinMapOK.lt (s : State) (h : PinMapOK s) :
    s.led_pin < 8 ∧ s.rs_pin < 8 ∧ s.enable_pin < 8 ∧ s.data_pins 0 < 8 ∧ s.data_pins 1 < 8
      ∧ s.data_pins 2 < 8 ∧ s.data_pins 3 < 8 := by
  have h2 := h.2
  simp only [List.mem_cons, List.mem_singleton, forall_eq_or_imp, forall_eq, List.not_mem_nil,
    false_implies, implies_true, and_true] at h2
  exact h2

theorem PinMapOK.ne (s : State) (h : PinMapOK s) :
    s.rs_pin ≠ s.enable_pin ∧ s.rs_pin ≠ s.led_pin
      ∧ s.enable_pin ≠ s.led_pin
      ∧ s.data_pins 0 ≠ s.enable_pin ∧ s.data_pins 1 ≠ s.enable_pin
      ∧ s.data_pins 2 ≠ s.enable_pin ∧ s.data_pins 3 ≠ s.enable_pin
      ∧ s.data_pins 0 ≠ s.rs_pin ∧ s.data_pins 1 ≠ s.rs_pin
      ∧ s.data_pins 2 ≠ s.rs_pin ∧ s.data_pins 3 ≠ s.rs_pin
      ∧ s.data_pins 0 ≠ s.led_pin ∧ s.data_pins 1 ≠ s.led_pin
      ∧ s.data_pins 2 ≠ s.led_pin ∧ s.data_pins 3 ≠ s.led_pin
      ∧ s.data_pins 1 ≠ s.data_pins 0 ∧ s.data_pins 2 ≠ s.data_pins 0
      ∧ s.data_pins 3 ≠ s.data_pins 0 ∧ s.data_pins 2 ≠ s.data_pins 1
      ∧ s.data_pins 3 ≠ s.data_pins 1 ∧ s.data_pins 3 ≠ s.data_pins 2 := by
  have h1 := h.1
  simp only [List.nodup_cons, List.mem_cons, List.mem_singleton, List.not_mem_nil, not_or,
    List.nodup_nil, and_true, not_false_eq_true, or_false] at h1
  obtain ⟨⟨a1, a2, a3, a4, a5, a6⟩, ⟨b1, b2, b3, b4, b5⟩, ⟨c1, c2, c3, c4⟩, ⟨d1, d2, d3⟩,
    ⟨e1, e2⟩, f1⟩ := h1
  refine ⟨?_, ?_, ?_, ?_, ?_, ?_, ?_, ?_, ?_, ?_, ?_, ?_, ?_, ?_, ?_, ?_, ?_, ?_, ?_, ?_, ?_⟩ <;>
    first | assumption | (intro hh; exact absurd hh.symm ‹_›)

theorem DefaultPinMap.ok (s : State) (h : DefaultPinMap s) : PinMapOK s := by
  obtain ⟨h1, h2, h3, h4, h5, h6, h7⟩ := h
  unfold PinMapOK
  rw [h1, h2, h3, h4, h5, h6, h7]
  decide

theorem nibble_bits (v : Nat) :
    bitAt v 0 + 2 * bitAt v 1 + 4 * bitAt v 2 + 8 * bitAt v 3 = v % 16 := by
  simp only [bitAt_eq_div]
  norm_num
  omega

theorem write4bits_bit_map (s : State) (v : Nat) :
    (write4bits s v).bit_map =
      bitWrite (bitWrite (bitWrite (setDataBits s.data_pins s.bit_map v) s.enable_pin LOW)
        s.enable_pin HIGH) s.enable_pin LOW := rfl

theorem write4bits_enable_pin (s : State) (v : Nat) :
    (write4bits s v).enable_pin = s.enable_pin := rfl

theorem write4bits_rs_pin (s : State) (v : Nat) : (write4bits s v).rs_pin = s.rs_pin := rfl

theorem write4bits_led_pin (s : State) (v : Nat) : (write4bits s v).led_pin = s.led_pin := rfl

theorem write4bits_data_pins (s : State) (v : Nat) :
    (write4bits s v).data_pins = s.data_pins := rfl

theorem bitAt_shiftRight (v a k : Nat) : bitAt (v >>> a) k = bitAt v (a + k) := by
  unfold bitAt
  rw [← Nat.shiftRight_add]

theorem nibble_bits_high (v : Nat) :
    bitAt v 4 + 2 * bitAt v 5 + 4 * bitAt v 6 + 8 * bitAt v 7 = (v >>> 4) % 16 := by
  rw [← nibble_bits (v >>> 4)]
  simp only [bitAt_shiftRight]

theorem send_bit_map (s : State) (v mode : Nat) :
    (send s v mode).bit_map =
      bitWrite (bitWrite (bitWrite (setDataBits s.data_pins
        (bitWrite (bitWrite (bitWrite (setDataBits s.data_pins
          (bitWrite s.bit_map s.rs_pin mode) (v >>> 4)) s.enable_pin LOW)
            s.enable_pin HIGH) s.enable_pin LOW) v) s.enable_pin LOW)
              s.enable_pin HIGH) s.enable_pin LOW := rfl

theorem send_lcdNibbles (s : State) (v mode : Nat) (hp : PinMapOK s)
    (hE : bitAt s.bit_map s.enable_pin = 0) (rest : List Nat) :
    lcdNibbles s s.bit_map (Act.pushes (sendActs s v mode) ++ rest)
      = (level mode, (v >>> 4) % 16) :: (level mode, v % 16)
          :: lcdNibbles s (send s v mode).bit_map rest := by
  obtain ⟨l1, l2, l3, l4, l5, l6, l7⟩ := PinMapOK.lt s hp
  obtain ⟨n1, n2, n3, n4, n5, n6, n7, n8, n9, n10, n11, n12, n13, n14, n15, n16, n17, n18,
    n19, n20, n21⟩ := PinMapOK.ne s hp
  have hL : level LOW = 0 := rfl
  have hH : level HIGH = 1 := rfl
  have h1 := nibble_bits_high v
  have h2 := nibble_bits v
  simp only [sendActs, write4bitsActs, pulseEnableActs, Act.pushes, lcdNibbles,
    List.cons_append, List.nil_append, enableFalls, bitAt_bitWrite, setDataBits_eq,
    write4bits_bit_map, shift_out, State.emit, send_bit_map, dataNibble, List.map_cons,
    l1, l2, l3, l4, l5, l6, l7, n1, n2, n3, n4, n5, n6, n7, n8, n9, n10, n11, n12, n13, n14, n15,
    n16, n17, n18, n19, n20, n21, n1.symm, n2.symm, n3.symm, n4.symm, n5.symm, n6.symm,
    n7.symm, n8.symm, n9.symm, n10.symm, n11.symm, n12.symm, n13.symm, n14.symm, n15.symm,
    n16.symm, n17.symm, n18.symm, n19.symm, n20.symm, n21.symm, if_true, if_false, hE, hL, hH,
    level_bitAt, and_self, and_true, true_and, zero_ne_one, one_ne_zero, and_false, false_and,
    write4bits_enable_pin, write4bits_data_pins, write4bits_rs_pin, bitAt_shiftRight,
    Nat.reduceAdd, h1, h2]
  rfl

theorem sendActs_lt (s : State) (v mode : Nat) : ∀ p ∈ Act.pushes (sendActs s v mode), p < 256 := by
  intro p hp
  simp only [sendActs, write4bitsActs, pulseEnableActs, Act.pushes, List.cons_append,
    List.nil_append, List.mem_cons, List.mem_singleton, List.not_mem_nil, or_false,
    setDataBits_eq] at hp
  rcases hp with h | h | h | h | h | h | h | h | h <;> rw [h] <;> exact bitWrite_lt _ _ _

theorem send_pushed (s : State) (v mode : Nat) :
    pushed ((send s v mode).since s) = Act.pushes (sendActs s v mode) := by
  rw [since_append _ _ _ (send_trace s v mode)]
  exact pushed_render _ (sendActs_lt s v mode)

theorem send_rs (s : State) (v mode : Nat) (hp : PinMapOK s) :
    ∀ p ∈ Act.pushes (sendActs s v mode), bitAt p s.rs_pin = level mode := by
  obtain ⟨l1, l2, l3, l4, l5, l6, l7⟩ := PinMapOK.lt s hp
  obtain ⟨n1, n2, n3, n4, n5, n6, n7, n8, n9, n10, n11, n12, n13, n14, n15, n16, n17, n18,
    n19, n20, n21⟩ := PinMapOK.ne s hp
  intro p hp
  simp only [sendActs, write4bitsActs, pulseEnableActs, Act.pushes, List.cons_append,
    List.nil_append, List.mem_cons, List.mem_singleton, List.not_mem_nil, or_false,
    setDataBits_eq, write4bits_bit_map, write4bits_enable_pin, write4bits_data_pins,
    shift_out, State.emit] at hp
  rcases hp with h | h | h | h | h | h | h | h | h <;> rw [h] <;>
    simp only [bitAt_bitWrite, l2, n1.symm, n8, n9, n10, n11, if_true, if_false]

theorem nibbles_or (h l : Nat) (hl : l < 16) : (h <<< 4) ||| l = 16 * h + l := by
  have e := Nat.mul_add_lt_is_or (show l < 2 ^ 4 from hl) h
  rw [Nat.shiftLeft_eq, Nat.mul_comm h (2 ^ 4), ← e]

theorem byte_reassemble (b : Nat) : (((b >>> 4) % 16) <<< 4) ||| (b % 16) = b % 256 := by
  rw [nibbles_or _ _ (Nat.mod_lt _ (by norm_num)), Nat.shiftRight_eq_div_pow]
  omega

theorem Act.pushes_append (xs ys : List Act) :
    Act.pushes (xs ++ ys) = Act.pushes xs ++ Act.pushes ys := by
  induction xs with
  | nil => rfl
  | cons a xs ih => cases a <;> simp [Act.pushes, ih]

theorem send_enable_low (s : State) (v mode : Nat) :
    bitAt (send s v mode).bit_map s.enable_pin = 0 := by
  have hL : level LOW = 0 := rfl
  rw [send_bit_map, bitAt_bitWrite]
  simp [hL]

theorem sendAll_lcdNibbles (bs : List (Nat × Nat)) :
    ∀ s : State, PinMapOK s → bitAt s.bit_map s.enable_pin = 0 →
      ∃ acts, (sendAll s bs).trace = s.trace ++ render acts
        ∧ (∀ v ∈ Act.pushes acts, v < 256)
        ∧ ∀ rest, lcdNibbles s s.bit_map (Act.pushes acts ++ rest) =
            bs.flatMap (fun b => [(level b.2, (b.1 >>> 4) % 16), (level b.2, b.1 % 16)])
              ++ lcdNibbles s (sendAll s bs).bit_map rest := by
  induction bs with
  | nil =>
    intro s _ _
    exact ⟨[], by simp [sendAll, render_nil], by simp [Act.pushes], fun rest => by
      simp [sendAll, Act.pushes]⟩
  | cons b bs ih =>
    intro s hp hE
    have hp1 : PinMapOK (send s b.1 b.2) := hp
    have hE1 : bitAt (send s b.1 b.2).bit_map (send s b.1 b.2).enable_pin = 0 :=
      send_enable_low s b.1 b.2
    obtain ⟨acts, h1, h2, h3⟩ := ih (send s b.1 b.2) hp1 hE1
    refine ⟨sendActs s b.1 b.2 ++ acts, ?_, ?_, ?_⟩
    · show (sendAll (send s b.1 b.2) bs).trace = _
      rw [h1, send_trace, render_append, List.append_assoc]
    · intro v hv
      rw [Act.pushes_append, List.mem_append] at hv
      rcases hv with hv | hv
      · exact sendActs_lt s b.1 b.2 v hv
      · exact h2 v hv
    · intro rest
      rw [Act.pushes_append, List.append_assoc, send_lcdNibbles s b.1 b.2 hp hE]
      have e : lcdNibbles s = lcdNibbles (send s b.1 b.2) := rfl
      rw [e, h3 rest]
      rfl

theorem lcdBytes_pairs (bs : List (Nat × Nat)) :
    lcdBytes (bs.flatMap (fun b => [(level b.2, (b.1 >>> 4) % 16), (level b.2, b.1 % 16)]))
      = bs.map (fun b => (level b.2, b.1 % 256)) := by
  induction bs with
  | nil => rfl
  | cons b bs ih =>
    rw [List.flatMap_cons, List.map_cons, ← ih]
    show (level b.2, (((b.1 >>> 4) % 16) <<< 4) ||| (b.1 % 16)) :: _ = _
    rw [byte_reassemble]
    rfl

theorem sendAll_lcdBytes (s : State) (bs : List (Nat × Nat)) (hp : PinMapOK s)
    (hE : bitAt s.bit_map s.enable_pin = 0) :
    lcdBytes (lcdNibbles s s.bit_map (pushed ((sendAll s bs).since s)))
      = bs.map (fun b => (level b.2, b.1 % 256)) := by
  obtain ⟨acts, h1, h2, h3⟩ := sendAll_lcdNibbles bs s hp hE
  rw [since_append _ _ _ h1, pushed_render _ h2]
  have h := h3 []
  rw [List.append_nil] at h
  rw [h]
  have e : lcdNibbles s (sendAll s bs).bit_map [] = [] := rfl
  rw [e, List.append_nil, lcdBytes_pairs]

/-! ## Every operation continues the history -/

theorem Extends.refl (s : State) : Extends s s := ⟨[], by simp, by simp [render_nil]⟩

theorem Extends.trans {a b c : State} (h1 : Extends a b) (h2 : Extends b c) : Extends a c := by
  obtain ⟨x, hx1, hx2⟩ := h1
  obtain ⟨y, hy1, hy2⟩ := h2
  exact ⟨x ++ y, by rw [hy1, hx1, List.append_assoc],
    by rw [hy2, hx2, render_append, List.append_assoc]⟩

theorem Extends.of_eq {a b : State} (c : State) (h : Extends a b) (h1 : c.acts = b.acts)
    (h2 : c.trace = b.trace) : Extends a c :=
  h.trans ⟨[], by simp [h1], by simp [h2, render_nil]⟩

theorem Extends.since {s t : State} (h : Extends s t) : t.since s = render (t.actsSince s) := by
  obtain ⟨x, hx1, hx2⟩ := h
  unfold State.since State.actsSince
  rw [hx1, hx2, List.drop_left, List.drop_left]

theorem Extends.emit {a b : State} (h : Extends a b) (x : Act) :
    Extends a (b.emit x x.events) :=
  h.trans ⟨[x], rfl, by simp [State.emit, render]⟩

theorem Extends.shift_out {a b : State} (h : Extends a b) : Extends a (shift_out b) :=
  h.emit (Act.push b.bit_map)

theorem Extends.delay {a b : State} (h : Extends a b) (ms : Nat) : Extends a (delay b ms) :=
  h.emit (Act.delay ms)

theorem Extends.delayMicroseconds {a b : State} (h : Extends a b) (us : Nat) :
    Extends a (delayMicroseconds b us) :=
  h.emit (Act.delayMicroseconds us)

theorem Extends.bit_map {a b : State} (h : Extends a b) (x : Nat) :
    Extends a { b with bit_map := x } := h.of_eq _ rfl rfl

theorem Extends.displayfunction {a b : State} (h : Extends a b) (x : Nat) :
    Extends a { b with displayfunction := x } := h.of_eq _ rfl rfl

theorem Extends.displaycontrol {a b : State} (h : Extends a b) (x : Nat) :
    Extends a { b with displaycontrol := x } := h.of_eq _ rfl rfl

theorem Extends.displaymode {a b : State} (h : Extends a b) (x : Nat) :
    Extends a { b with displaymode := x } := h.of_eq _ rfl rfl

theorem Extends.pulseEnable {a b : State} (h : Extends a b) : Extends a (pulseEnable b) :=
  ((((((((h.bit_map _).shift_out).delayMicroseconds 1).bit_map _).shift_out).delayMicroseconds
    1).bit_map _).shift_out).delayMicroseconds 50

theorem Extends.write4bits {a b : State} (h : Extends a b) (v : Nat) :
    Extends a (write4bits b v) :=
  ((h.bit_map _).shift_out).pulseEnable

theorem Extends.send {a b : State} (h : Extends a b) (v mode : Nat) :
    Extends a (send b v mode) :=
  (((h.bit_map _).shift_out).write4bits _).write4bits _

theorem Extends.command {a b : State} (h : Extends a b) (v : Nat) : Extends a (command b v) :=
  h.send v LOW

theorem Extends.display {a b : State} (h : Extends a b) : Extends a (display b) :=
  (h.displaycontrol _).command _

theorem Extends.clear {a b : State} (h : Extends a b) : Extends a (clear b) :=
  (h.command _).delay 2

theorem Extends.ite {a b c : State} (p : Prop) [Decidable p] (hb : Extends a b)
    (hc : Extends a c) : Extends a (if p then b else c) := by
  split
  · exact hb
  · exact hc

theorem Extends.numlines_currline {a b : State} (h : Extends a b) (x y : Nat) :
    Extends a { b with numlines := x, currline := y } := h.of_eq _ rfl rfl

theorem Extends.begin {a b : State} (h : Extends a b) (cols lines dotsize : Nat) :
    Extends a (begin b cols lines dotsize) := by
  let s1 : State := if lines > 1 then
      { b with displayfunction := (b.displayfunction ||| LCD_2LINE) % 256 }
    else b
  have h1 : Extends a s1 := Extends.ite _ (h.displayfunction _) h
  let s2 : State := { s1 with numlines := lines, currline := 0 }
  have h2 : Extends a s2 := h1.numlines_currline lines 0
  let s3 : State := if dotsize ≠ 0 ∧ lines = 1 then
      { s2 with displayfunction := (s2.displayfunction ||| LCD_5x10DOTS) % 256 }
    else s2
  have h3 : Extends a s3 := Extends.ite _ (h2.displayfunction _) h2
  let s4 : State := Driver.shift_out { Driver.delay s3 100 with
    bit_map := bitWrite (bitWrite 0x00 s3.rs_pin 1) s3.enable_pin 1 }
  have h4 : Extends a s4 := ((h3.delay 100).bit_map _).shift_out
  let s5 : State := Driver.shift_out { s4 with
    bit_map := bitWrite (bitWrite s4.bit_map s4.rs_pin 0) s4.enable_pin 0 }
  have h5 : Extends a s5 := (h4.bit_map _).shift_out
  let s6 : State :=
    if s5.displayfunction &&& LCD_8BITMODE = 0 then
      Driver.write4bits (Driver.delay (Driver.write4bits (Driver.delay (Driver.write4bits
        (Driver.delay (Driver.write4bits s5 0x03) 5) 0x03) 5) 0x03) 1) 0x02
    else
      Driver.command (Driver.delay (Driver.command (Driver.delay
        (Driver.command s5 ((LCD_FUNCTIONSET ||| s5.displayfunction) % 256)) 5)
        ((LCD_FUNCTIONSET ||| s5.displayfunction) % 256)) 1)
        ((LCD_FUNCTIONSET ||| s5.displayfunction) % 256)
  have h6 : Extends a s6 := Extends.ite _
    (((((((h5.write4bits 0x03).delay 5).write4bits 0x03).delay 5).write4bits 0x03).delay
      1).write4bits 0x02)
    (((((h5.command _).delay 5).command _).delay 1).command _)
  have h7 : Extends a (Driver.command s6 ((LCD_FUNCTIONSET ||| s6.displayfunction) % 256)) :=
    h6.command _
  have h8 := ((h7.displaycontrol ((LCD_DISPLAYON ||| LCD_CURSOROFF ||| LCD_BLINKOFF) % 256)).display).clear
  exact (h8.displaymode ((LCD_ENTRYLEFT ||| LCD_ENTRYSHIFTDECREMENT) % 256)).command _

theorem Extends.init {a b : State} (h : Extends a b) (led rs enable d4 d5 d6 d7 : Nat) :
    Extends a (init b led rs enable d4 d5 d6 d7) :=
  (h.of_eq { b with
      led_pin := led, rs_pin := rs, enable_pin := enable,
      data_pins := fun i =>
        if i.val = 0 then d4 else if i.val = 1 then d5 else if i.val = 2 then d6 else d7,
      displayfunction := (LCD_4BITMODE ||| LCD_1LINE ||| LCD_5x8DOTS) % 256,
      bit_map := 0x00 } rfl rfl).begin 16 1 LCD_5x8DOTS

/-! ## The constructed driver -/

theorem constructed_ready (data clock latch : Nat) :
    DefaultPinMap (LiquidCrypstal data clock latch)
      ∧ (LiquidCrypstal data clock latch).bit_map = 0x60
      ∧ (LiquidCrypstal data clock latch).displayfunction = 0
      ∧ (LiquidCrypstal data clock latch).displaycontrol = 4
      ∧ (LiquidCrypstal data clock latch).displaymode = 2
      ∧ (LiquidCrypstal data clock latch).numlines = 1 := by
  have h : DefaultPinMap (LiquidCrypstal 0 0 0)
      ∧ (LiquidCrypstal 0 0 0).bit_map = 0x60
      ∧ (LiquidCrypstal 0 0 0).displayfunction = 0
      ∧ (LiquidCrypstal 0 0 0).displaycontrol = 4
      ∧ (LiquidCrypstal 0 0 0).displaymode = 2
      ∧ (LiquidCrypstal 0 0 0).numlines = 1 :=
    ⟨⟨by decide!, by decide!, by decide!, by decide!, by decide!, by decide!, by decide!⟩,
      by decide!, by decide!, by decide!, by decide!, by decide!⟩
  exact h

/-! # The claims -/

/-- C1, amended.  With the default pin map, for every byte `B`, every mode and
every starting shadow value whose enable bit (bit 3) is clear, `send(B, mode)`
is the push of the register-select bit followed by exactly two nibble writes,
`write4bits(B >> 4)` then `write4bits(B)`; the register outputs show exactly
two high-to-low transitions of enable, the data lines (bits 4..7) read
`B >> 4` at the first and `B & 0xF` at the second, and
`((B >> 4) << 4) | (B & 0xF) = B`. -/
theorem send_two_nibbles (s : State) (B mode : Nat) (hpins : DefaultPinMap s) (hB : B < 256)
    (hE : bitAt s.bit_map 3 = 0) :
    send s B mode =
        write4bits (write4bits (shift_out { s with bit_map := bitWrite s.bit_map s.rs_pin mode })
          (B >>> 4)) B
    ∧ (enableFalls 3 s.bit_map (pushed ((send s B mode).since s))).map (dataNibble s)
        = [B >>> 4, B &&& 0xF]
    ∧ ((B >>> 4) <<< 4) ||| (B &&& 0xF) = B := by
  have hen : s.enable_pin = 3 := hpins.2.2.1
  have h15 : B &&& 0xF = B % 16 := Nat.and_pow_two_sub_one_eq_mod B 4
  have hhi : (B >>> 4) % 16 = B >>> 4 := by
    rw [Nat.shiftRight_eq_div_pow]; omega
  refine ⟨rfl, ?_, ?_⟩
  · have h := send_lcdNibbles s B mode (DefaultPinMap.ok s hpins) (by rw [hen]; exact hE) []
    rw [List.append_nil] at h
    have h2 := congrArg (List.map Prod.snd) h
    rw [send_pushed, h15, ← hhi]
    simpa [lcdNibbles, hen, enableFalls, List.map_map, Function.comp_def] using h2
  · rw [h15, ← hhi, byte_reassemble, Nat.mod_eq_of_lt hB]

/-- C1, witness: the ready state the constructor leaves (shadow `0x60`),
byte `0xA5`, data mode. -/
theorem send_two_nibbles_witness :
    (enableFalls 3 0x60 (pushed ((send (State.sample 0x60) 0xA5 1).since (State.sample 0x60)))).map
        (dataNibble (State.sample 0x60)) = [0xA5 >>> 4, 0xA5 &&& 0xF] :=
  (send_two_nibbles (State.sample 0x60) 0xA5 1 ⟨rfl, rfl, rfl, rfl, rfl, rfl, rfl⟩ (by decide)
    (by decide)).2.1

/-- C1, counterexample.  From a shadow value with the enable bit set (`0x08`)
the outputs of `send(0xA5, command)` show three high-to-low transitions of
enable, not two: the bytes pushed are `08 A8 A0 A8 A0 50 50 58 50` and the
data lines read `0xA`, `0xA`, `0x5`. -/
theorem send_enable_high_three_falls :
    pushed ((send (State.sample 0x08) 0xA5 0).since (State.sample 0x08))
        = [0x08, 0xA8, 0xA0, 0xA8, 0xA0, 0x50, 0x50, 0x58, 0x50]
    ∧ (enableFalls 3 0x08
          (pushed ((send (State.sample 0x08) 0xA5 0).since (State.sample 0x08)))).map
        (dataNibble (State.sample 0x08)) = [0xA, 0xA, 0x5]
    ∧ (enableFalls 3 0x08
          (pushed ((send (State.sample 0x08) 0xA5 0).since (State.sample 0x08)))).map
        (dataNibble (State.sample 0x08)) ≠ [0xA5 >>> 4, 0xA5 &&& 0xF] := by
  rw [send_pushed]
  decide!

/-- C2.  For every shadow value, `shift_out()` makes exactly the primitive
calls of one push; on a link at rest (whatever the data level and register
content) they produce eight clock pulses, the data level at the `i`-th rising
clock edge being `(B >> (7-i)) & 1`, followed by exactly one latch
high-then-low pulse; the data line ends low and the shadow value is
unchanged.  For `B = 0xA5` the sampled bits are `1,0,1,0,0,1,0,1`. -/
theorem shift_out_msb_first (s : State) (d sr : Nat) :
    (shift_out s).since s = shift_out_events s.bit_map
    ∧ (Link.run (Link.idle d sr) ((shift_out s).since s)).edges =
        (List.range 8).flatMap
            (fun i => [Edge.clockRise ((s.bit_map >>> (7 - i)) &&& 1), Edge.clockFall])
          ++ [Edge.latchRise, Edge.latchFall]
    ∧ (Link.run (Link.idle d sr) ((shift_out s).since s)).data = 0
    ∧ (shift_out s).bit_map = s.bit_map
    ∧ clockSamples (Link.run (Link.idle d sr)
          ((shift_out { s with bit_map := 0xA5 }).since { s with bit_map := 0xA5 })).edges
        = [1, 0, 1, 0, 0, 1, 0, 1] := by
  have hs : ∀ a : State, (shift_out a).since a = shift_out_events a.bit_map :=
    fun a => since_append _ _ _ rfl
  refine ⟨hs s, ?_, ?_, rfl, ?_⟩
  · rw [hs, Link.run_shift_out_events _ _ rfl rfl]
    rfl
  · rw [hs, Link.run_shift_out_events _ _ rfl rfl]
  · simp only [hs]
    rw [Link.run_shift_out_events _ _ rfl rfl]
    rfl

/-- C3, failing input.  Construct the driver and call `begin(16, 2, 0)`: two
lines are configured.  `setCursor(0, 2)` then passes the test
`row > _numlines` unclamped: the row used is 2, not `2 - 1`, and the command
sent is `0x80 | 0x14 = 0x94` instead of `0x80 | 0x40 = 0xC0`.  After
`begin(20, 4, 0)`, `setCursor(0, 4)` reads `row_offsets[4]`, past the end of
the table. -/
theorem setCursor_row_equal_numlines_unclamped :
    (begin (LiquidCrypstal 0 0 0) 16 2 0).numlines = 2
    ∧ setCursorRow (begin (LiquidCrypstal 0 0 0) 16 2 0) 2 = 2
    ∧ setCursor (begin (LiquidCrypstal 0 0 0) 16 2 0) 0 2
        = some (command (begin (LiquidCrypstal 0 0 0) 16 2 0) 0x94)
    ∧ setCursorRow (begin (LiquidCrypstal 0 0 0) 20 4 0) 4 = 4
    ∧ setCursor (begin (LiquidCrypstal 0 0 0) 20 4 0) 0 4 = none := by
  have h2 : setCursorRow (begin (LiquidCrypstal 0 0 0) 16 2 0) 2 = 2 := by decide!
  have h4 : setCursorRow (begin (LiquidCrypstal 0 0 0) 20 4 0) 4 = 4 := by decide!
  refine ⟨by decide!, h2, ?_, h4, ?_⟩
  · unfold setCursor
    rw [h2]
    rfl
  · unfold setCursor
    rw [h4]
    rfl

theorem command_eq_sendAll (s : State) (v : Nat) : command s v = sendAll s [(v, LOW)] := rfl

/-- C4.  For every configured line count `n <= 4`, every row `< n` and every
column, `setCursor(col, row)` is exactly one `command` whose byte is the low
eight bits of `0x80 | (col + T[row])`, `T = {0x00, 0x40, 0x14, 0x54}`; it
leaves the function, display-control and entry-mode flags as they were, the
register-select bit is 0 in every byte it pushes, and from a shadow value
with enable low the LCD controller receives exactly that one command byte. -/
theorem setCursor_in_range (s : State) (col row : Nat) (hn : s.numlines ≤ 4)
    (hr : row < s.numlines) (hp : PinMapOK s) :
    ∃ t, setCursor s col row = some t
      ∧ t = command s
          ((LCD_SETDDRAMADDR ||| (col + ([0x00, 0x40, 0x14, 0x54] : List Nat).getD row 0)) % 256)
      ∧ t.displayfunction = s.displayfunction
      ∧ t.displaycontrol = s.displaycontrol
      ∧ t.displaymode = s.displaymode
      ∧ (∀ p ∈ pushed (t.since s), bitAt p s.rs_pin = 0)
      ∧ (bitAt s.bit_map s.enable_pin = 0 →
          lcdBytes (lcdNibbles s s.bit_map (pushed (t.since s)))
            = [(0, (LCD_SETDDRAMADDR
                ||| (col + ([0x00, 0x40, 0x14, 0x54] : List Nat).getD row 0)) % 256)]) := by
  have hrow : setCursorRow s row = row := by
    unfold setCursorRow
    rw [if_neg (by omega)]
  have hlook : row_offsets[row]? = some (([0x00, 0x40, 0x14, 0x54] : List Nat).getD row 0) := by
    have h4 : row < 4 := by omega
    interval_cases row <;> rfl
  refine ⟨_, ?_, rfl, rfl, rfl, rfl, ?_, ?_⟩
  · unfold setCursor
    rw [hrow, hlook]
  · intro p hp'
    have h := send_rs s _ LOW hp p (by rw [← send_pushed]; exact hp')
    rw [h]; rfl
  · intro hE
    rw [command_eq_sendAll, sendAll_lcdBytes s _ hp hE]
    simp only [List.map_cons, List.map_nil, Nat.mod_mod]
    rfl

/-- C4, witness: two lines configured and the ready shadow value `0x60`;
`setCursor(5, 1)` sends the one command `0x80 | 0x45 = 0xC5`. -/
theorem setCursor_in_range_witness :
    ∃ t, setCursor { State.sample 0x60 with numlines := 2 } 5 1 = some t
      ∧ t = command { State.sample 0x60 with numlines := 2 } 0xC5
      ∧ lcdBytes (lcdNibbles { State.sample 0x60 with numlines := 2 } 0x60
          (pushed (t.since { State.sample 0x60 with numlines := 2 }))) = [(0, 0xC5)] := by
  obtain ⟨t, h1, h2, _, _, _, _, h7⟩ :=
    setCursor_in_range { State.sample 0x60 with numlines := 2 } 5 1
      (by decide) (by decide) (by unfold PinMapOK; decide)
  exact ⟨t, h1, h2, h7 (by decide)⟩

theorem cgram_byte_lt (location : Nat) :
    (LCD_SETCGRAMADDR ||| ((location &&& 0x7) <<< 3)) % 256
      = LCD_SETCGRAMADDR ||| ((location &&& 0x7) <<< 3) := by
  have hk : location &&& 0x7 ≤ 7 := Nat.and_le_right
  generalize location &&& 0x7 = k at hk
  interval_cases k <;> rfl

theorem createChar_eq_sendAll (s : State) (location : Nat) (charmap : Nat → Nat) :
    createChar s location charmap =
      sendAll s [ ((LCD_SETCGRAMADDR ||| ((location &&& 0x7) <<< 3)) % 256, LOW),
        (charmap 0, HIGH), (charmap 1, HIGH), (charmap 2, HIGH), (charmap 3, HIGH),
        (charmap 4, HIGH), (charmap 5, HIGH), (charmap 6, HIGH), (charmap 7, HIGH) ] := rfl

/-- C5.  For every slot value and every 8-row glyph of bytes,
`createChar(slot, glyph)` is the command `0x40 | ((slot & 0x7) << 3)` followed
by the eight writes of `glyph[0]`, ..., `glyph[7]`, in that order, and nothing
else; `createChar(slot, g)` and `createChar(slot & 0x7, g)` leave the same
state and trace; and from a shadow value with enable low the LCD controller
receives exactly that command byte with register-select low and then the
eight glyph bytes with register-select high. -/
theorem createChar_command_then_eight_writes (s : State) (location : Nat) (charmap : Nat → Nat)
    (hc : ∀ i < 8, charmap i < 256) (hp : PinMapOK s)
    (hE : bitAt s.bit_map s.enable_pin = 0) :
    createChar s location charmap =
        (write (write (write (write (write (write (write (write
          (command s (LCD_SETCGRAMADDR ||| ((location &&& 0x7) <<< 3)))
          (charmap 0)).1 (charmap 1)).1 (charmap 2)).1 (charmap 3)).1 (charmap 4)).1
          (charmap 5)).1 (charmap 6)).1 (charmap 7)).1
    ∧ createChar s location charmap = createChar s (location &&& 0x7) charmap
    ∧ lcdBytes (lcdNibbles s s.bit_map (pushed ((createChar s location charmap).since s)))
        = [ (0, LCD_SETCGRAMADDR ||| ((location &&& 0x7) <<< 3)),
            (1, charmap 0), (1, charmap 1), (1, charmap 2), (1, charmap 3),
            (1, charmap 4), (1, charmap 5), (1, charmap 6), (1, charmap 7) ] := by
  refine ⟨?_, ?_, ?_⟩
  · rw [createChar_eq_sendAll, cgram_byte_lt]
    rfl
  · rw [createChar_eq_sendAll, createChar_eq_sendAll, Nat.and_assoc]
    rfl
  · rw [createChar_eq_sendAll, sendAll_lcdBytes s _ hp hE]
    simp only [List.map_cons, List.map_nil, Nat.mod_mod, cgram_byte_lt,
      Nat.mod_eq_of_lt (hc 0 (by decide)), Nat.mod_eq_of_lt (hc 1 (by decide)),
      Nat.mod_eq_of_lt (hc 2 (by decide)), Nat.mod_eq_of_lt (hc 3 (by decide)),
      Nat.mod_eq_of_lt (hc 4 (by decide)), Nat.mod_eq_of_lt (hc 5 (by decide)),
      Nat.mod_eq_of_lt (hc 6 (by decide)), Nat.mod_eq_of_lt (hc 7 (by decide))]
    rfl

/-- C5, witness: slot 9 (masked to 1) and the glyph whose row `i` is `i + 1`,
from the ready state the constructor leaves. -/
theorem createChar_command_then_eight_writes_witness :
    lcdBytes (lcdNibbles (State.sample 0x60) 0x60
        (pushed ((createChar (State.sample 0x60) 9 (fun i => i + 1)).since (State.sample 0x60))))
      = [(0, 0x48), (1, 1), (1, 2), (1, 3), (1, 4), (1, 5), (1, 6), (1, 7), (1, 8)] :=
  (createChar_command_then_eight_writes (State.sample 0x60) 9 (fun i => i + 1)
    (fun i hi => by show i + 1 < 256; omega) (by unfold PinMapOK; decide) (by decide)).2.2

/-- C6.  From the state left by the constructor, `begin(16, 1, 0)` makes
exactly the primitive calls of the scenario, in order and with nothing in
between: a 100 ms delay; a push of `0x0A` (register-select and enable set)
and a push of `0x00`; nibble `0x3`, 5 ms; nibble `0x3`, 5 ms; nibble `0x3`,
1 ms; nibble `0x2`; the commands `0x20` (function set, one line, 5x8 font),
`0x0C` (display on, cursor off, blink off), `0x01` (clear) followed by a
2 ms delay, and `0x06` (entry mode, left to right, no shift).  The bytes
latched onto the register outputs are listed in full. -/
theorem begin_scenario (data clock latch : Nat) :
    (begin (LiquidCrypstal data clock latch) 16 1 0).since (LiquidCrypstal data clock latch)
      = render Spec.beginScenario
    ∧ (begin (LiquidCrypstal data clock latch) 16 1 0).actsSince
        (LiquidCrypstal data clock latch) = Spec.beginScenario
    ∧ pushed ((begin (LiquidCrypstal data clock latch) 16 1 0).since
        (LiquidCrypstal data clock latch))
      = [ 0x0A, 0x00,
          0x30, 0x30, 0x38, 0x30,
          0x30, 0x30, 0x38, 0x30,
          0x30, 0x30, 0x38, 0x30,
          0x20, 0x20, 0x28, 0x20,
          0x20, 0x20, 0x20, 0x28, 0x20, 0x00, 0x00, 0x08, 0x00,
          0x00, 0x00, 0x00, 0x08, 0x00, 0xC0, 0xC0, 0xC8, 0xC0,
          0xC0, 0x00, 0x00, 0x08, 0x00, 0x10, 0x10, 0x18, 0x10,
          0x10, 0x00, 0x00, 0x08, 0x00, 0x60, 0x60, 0x68, 0x60 ] := by
  have h : (begin (LiquidCrypstal 0 0 0) 16 1 0).actsSince (LiquidCrypstal 0 0 0)
      = Spec.beginScenario := by decide!
  have h' : (begin (LiquidCrypstal data clock latch) 16 1 0).actsSince
      (LiquidCrypstal data clock latch) = Spec.beginScenario := h
  have hs : (begin (LiquidCrypstal data clock latch) 16 1 0).since
      (LiquidCrypstal data clock latch) = render Spec.beginScenario := by
    rw [((Extends.refl _).begin 16 1 0).since, h']
  refine ⟨hs, h', ?_⟩
  rw [hs, pushed_render _ (by decide!)]
  decide!

theorem or_flag_mod_idem (c : Nat) : ((c ||| 4) % 256 ||| 4) % 256 = (c ||| 4) % 256 := by
  have h256 : (256 : Nat) = 2 ^ 8 := by norm_num
  rw [h256]
  apply Nat.eq_of_testBit_eq
  intro i
  simp only [Nat.testBit_mod_two_pow, Nat.testBit_or]
  by_cases h8 : i < 8 <;> simp [h8]

theorem andNot8_or_flag (c k : Nat) (hk : k < 8) :
    ((andNot8 c 4 ||| 4) % 256).testBit k = (if k = 2 then true else c.testBit k) := by
  have h256 : (256 : Nat) = 2 ^ 8 := by norm_num
  have h4 : (4 : Nat) = 2 ^ 2 := by norm_num
  have hF : (0xFFFF : Nat) = 2 ^ 16 - 1 := by norm_num
  unfold andNot8
  rw [h256, hF, h4]
  simp only [Nat.testBit_mod_two_pow, Nat.testBit_or, Nat.testBit_and, Nat.testBit_xor,
    Nat.testBit_two_pow_sub_one, Nat.testBit_two_pow]
  have h16 : k < 16 := by omega
  by_cases h2 : k = 2
  · subst h2; simp
  · have h2' : ¬ (2 = k) := fun h => h2 h.symm
    simp [hk, h16, h2, h2']

theorem and_flag_eq (x y k : Nat) (h : x.testBit k = y.testBit k) :
    x &&& 2 ^ k = y &&& 2 ^ k := by
  apply Nat.eq_of_testBit_eq
  intro i
  simp only [Nat.testBit_and, Nat.testBit_two_pow]
  by_cases hi : k = i
  · subst hi; simp [h]
  · simp [hi]

/-- C7.  For every display-control flag value: the flags after
`display(); display()` equal those after a single `display()`; and after
`noDisplay(); display()` the display-on bit is set while the cursor and
blink bits are those of the starting value. -/
theorem display_idempotent (s : State) :
    (display (display s)).displaycontrol = (display s).displaycontrol
    ∧ (display (noDisplay s)).displaycontrol &&& LCD_DISPLAYON = LCD_DISPLAYON
    ∧ (display (noDisplay s)).displaycontrol &&& LCD_CURSORON
        = s.displaycontrol &&& LCD_CURSORON
    ∧ (display (noDisplay s)).displaycontrol &&& LCD_BLINKON
        = s.displaycontrol &&& LCD_BLINKON := by
  have e1 : (display (display s)).displaycontrol
      = ((s.displaycontrol ||| 4) % 256 ||| 4) % 256 := rfl
  have e2 : (display s).displaycontrol = (s.displaycontrol ||| 4) % 256 := rfl
  have e3 : (display (noDisplay s)).displaycontrol
      = (andNot8 s.displaycontrol 4 ||| 4) % 256 := rfl
  refine ⟨by rw [e1, e2, or_flag_mod_idem], ?_, ?_, ?_⟩
  · rw [e3]
    have h := and_flag_eq ((andNot8 s.displaycontrol 4 ||| 4) % 256) 4 2
      (by rw [andNot8_or_flag _ 2 (by decide)]; rfl)
    exact h
  · rw [e3]
    exact and_flag_eq _ _ 1 (by rw [andNot8_or_flag _ 1 (by decide)]; rfl)
  · rw [e3]
    exact and_flag_eq _ _ 0 (by rw [andNot8_or_flag _ 0 (by decide)]; rfl)

/-- C8.  With the LED on bit 2 and a shadow byte `s`: `ledOn()` leaves the
shadow equal to `s` with bit 2 cleared, `ledOff()` leaves it equal to `s` with
bit 2 set; each makes exactly the primitive calls of one push of the new
shadow value and no wait, and leaves every other shadow bit and every display
flag as it was.  So `ledOn()` then `ledOff()` makes exactly two pushes and
changes at most bit 2. -/
theorem led_toggles_one_bit (s : State) (hled : s.led_pin = 2) (hs : s.bit_map < 256) :
    (∀ i, (ledOn s).bit_map.testBit i = (if i = 2 then false else s.bit_map.testBit i))
    ∧ (∀ i, (ledOff s).bit_map.testBit i = (if i = 2 then true else s.bit_map.testBit i))
    ∧ (ledOn s).since s = render [Act.push (ledOn s).bit_map]
    ∧ (ledOff s).since s = render [Act.push (ledOff s).bit_map]
    ∧ ((ledOn s).displayfunction = s.displayfunction
        ∧ (ledOn s).displaycontrol = s.displaycontrol
        ∧ (ledOn s).displaymode = s.displaymode)
    ∧ ((ledOff s).displayfunction = s.displayfunction
        ∧ (ledOff s).displaycontrol = s.displaycontrol
        ∧ (ledOff s).displaymode = s.displaymode)
    ∧ (ledOff (ledOn s)).since s
        = render [Act.push (ledOn s).bit_map, Act.push (ledOff (ledOn s)).bit_map]
    ∧ (∀ i, i ≠ 2 → (ledOff (ledOn s)).bit_map.testBit i = s.bit_map.testBit i) := by
  have hhi : ∀ i, ¬ i < 8 → s.bit_map.testBit i = false := by
    intro i hi
    apply Nat.testBit_lt_two_pow
    calc s.bit_map < 256 := hs
      _ = 2 ^ 8 := by norm_num
      _ ≤ 2 ^ i := Nat.pow_le_pow_right (by norm_num) (by omega)
  have hon : ∀ i, (ledOn s).bit_map.testBit i
      = (if i = 2 then false else s.bit_map.testBit i) := by
    intro i
    show (bitWrite s.bit_map s.led_pin 0x00).testBit i = _
    rw [testBit_bitWrite, hled]
    by_cases h8 : i < 8 <;> by_cases h2 : i = 2
    · subst h2; simp
    · have : ¬ (2 = i) := fun h => h2 h.symm
      simp [h8, h2, this]
    · omega
    · have : ¬ (2 = i) := fun h => h2 h.symm
      simp [h8, h2, this, hhi i h8]
  have hoff : ∀ (b : Nat), b < 256 → (∀ i, ¬ i < 8 → b.testBit i = false) →
      ∀ i, (bitWrite b 2 0x01).testBit i = (if i = 2 then true else b.testBit i) := by
    intro b _ hb i
    rw [testBit_bitWrite]
    by_cases h8 : i < 8 <;> by_cases h2 : i = 2
    · subst h2; simp
    · have : ¬ (2 = i) := fun h => h2 h.symm
      simp [h8, h2, this]
    · omega
    · have : ¬ (2 = i) := fun h => h2 h.symm
      simp [h8, h2, this, hb i h8]
  have off_s : ∀ i, (ledOff s).bit_map.testBit i
      = (if i = 2 then true else s.bit_map.testBit i) := by
    intro i
    show (bitWrite s.bit_map s.led_pin 0x01).testBit i = _
    rw [hled]
    exact hoff s.bit_map hs hhi i
  refine ⟨hon, off_s, ?_, ?_, ⟨rfl, rfl, rfl⟩, ⟨rfl, rfl, rfl⟩, ?_, ?_⟩
  · exact since_append _ _ _ (by simp [ledOn, shift_out, State.emit, render, Act.events])
  · exact since_append _ _ _ (by simp [ledOff, shift_out, State.emit, render, Act.events])
  · exact since_append _ _ _
      (by simp [ledOn, ledOff, shift_out, State.emit, render, Act.events, List.append_assoc])
  · intro i hi
    show (bitWrite (bitWrite s.bit_map s.led_pin 0x00) s.led_pin 0x01).testBit i = _
    rw [testBit_bitWrite, testBit_bitWrite, hled]
    have : ¬ (2 = i) := fun h => hi h.symm
    by_cases h8 : i < 8
    · simp [h8, this]
    · simp [h8, hhi i h8]

/-- C8, witness: the ready state the constructor leaves (shadow `0x60`). -/
theorem led_toggles_one_bit_witness :
    (ledOn (State.sample 0x60)).bit_map = 0x60 ∧ (ledOff (State.sample 0x60)).bit_map = 0x64
    ∧ (ledOff (ledOn (State.sample 0x60))).since (State.sample 0x60)
        = render [Act.push 0x60, Act.push 0x64] :=
  ⟨rfl, rfl, (led_toggles_one_bit (State.sample 0x60) rfl (by decide)).2.2.2.2.2.2.1⟩

/-- C9.  For every byte and every driver state (pin map as in the data
model: distinct indices within 0..7), `write(b)` returns 1 and leaves the
state and trace of `send(b, HIGH)`, with the register-select bit 1 in every
byte it pushes; `command(b)` leaves the state and trace of `send(b, LOW)`,
with the register-select bit 0 in every byte it pushes. -/
theorem write_command_register_select (s : State) (b : Nat) (hp : PinMapOK s) :
    (write s b).2 = 1
    ∧ (write s b).1 = send s b HIGH
    ∧ (write s b).1.since s = (send s b HIGH).since s
    ∧ (∀ p ∈ pushed ((write s b).1.since s), bitAt p s.rs_pin = 1)
    ∧ command s b = send s b LOW
    ∧ (command s b).since s = (send s b LOW).since s
    ∧ (∀ p ∈ pushed ((command s b).since s), bitAt p s.rs_pin = 0) := by
  refine ⟨rfl, rfl, rfl, ?_, rfl, rfl, ?_⟩
  · intro p hp'
    have h := send_rs s b HIGH hp p (by rw [← send_pushed]; exact hp')
    rw [h]; rfl
  · intro p hp'
    have h := send_rs s b LOW hp p (by rw [← send_pushed]; exact hp')
    rw [h]; rfl

/-- C9, witness: the ready state the constructor leaves, byte `0x41`. -/
theorem write_command_register_select_witness :
    (write (State.sample 0x60) 0x41).2 = 1
    ∧ pushed ((write (State.sample 0x60) 0x41).1.since (State.sample 0x60))
        = [0x62, 0x42, 0x42, 0x4A, 0x42, 0x12, 0x12, 0x1A, 0x12]
    ∧ (∀ p ∈ pushed ((write (State.sample 0x60) 0x41).1.since (State.sample 0x60)),
        bitAt p 1 = 1) :=
  ⟨rfl, by rw [show (write (State.sample 0x60) 0x41).1 = send (State.sample 0x60) 0x41 HIGH
      from rfl, send_pushed]; decide!,
    (write_command_register_select (State.sample 0x60) 0x41 (by unfold PinMapOK; decide)).2.2.2.1⟩

/-- C10, failing input.  Construct the driver, call `begin(16, 2, 0)` and then
`begin(16, 1, 1)`: the first call sets the 2-line flag, the second sets the
5x10-font flag on top of it, and the function flags end as `0x0C`, both
set. -/
theorem begin_twice_sets_both_flags :
    BeginReachable (begin (begin (LiquidCrypstal 0 0 0) 16 2 0) 16 1 1)
    ∧ (begin (LiquidCrypstal 0 0 0) 16 2 0).displayfunction = LCD_2LINE
    ∧ (begin (begin (LiquidCrypstal 0 0 0) 16 2 0) 16 1 1).displayfunction
        = LCD_2LINE ||| LCD_5x10DOTS
    ∧ (begin (begin (LiquidCrypstal 0 0 0) 16 2 0) 16 1 1).displayfunction &&& LCD_2LINE ≠ 0
    ∧ (begin (begin (LiquidCrypstal 0 0 0) 16 2 0) 16 1 1).displayfunction &&& LCD_5x10DOTS
        ≠ 0 := by
  refine ⟨?_, by decide!, by decide!, by decide!, by decide!⟩
  exact BeginReachable.begin _ 16 1 1 (by decide) (by decide) (by decide)
    (BeginReachable.begin _ 16 2 0 (by decide) (by decide) (by decide)
      (BeginReachable.construct 0 0 0))

/-! ## Ending in step with the register -/

theorem Link.run_render_mod (as : List Act) :
    pushed (render as) = (Act.pushes as).map (fun v => v % 256) := by
  unfold pushed
  rw [(Link.run_render as (Link.idle 0 0) rfl rfl).1]
  rfl

theorem Extends.pushed_eq {s t : State} (h : Extends s t) :
    pushed (t.since s) = (Act.pushes (t.actsSince s)).map (fun v => v % 256) := by
  rw [h.since, Link.run_render_mod]

theorem send_acts (s : State) (v mode : Nat) :
    (send s v mode).acts = s.acts ++ sendActs s v mode := by
  simp [send, write4bits, pulseEnable, shift_out, delayMicroseconds, State.emit, sendActs,
    write4bitsActs, pulseEnableActs, List.append_assoc]

theorem sendActs_getLast (s : State) (v mode : Nat) :
    (Act.pushes (sendActs s v mode)).getLast? = some (send s v mode).bit_map := by
  simp only [sendActs, write4bitsActs, pulseEnableActs, Act.pushes, List.cons_append,
    List.nil_append, send_bit_map, write4bits_bit_map, write4bits_enable_pin,
    write4bits_data_pins, shift_out, State.emit]
  rfl

theorem send_bit_map_lt (s : State) (v mode : Nat) : (send s v mode).bit_map < 256 := by
  rw [send_bit_map]
  exact bitWrite_lt _ _ _

theorem pushes_getLast_append (xs ys : List Act) (v : Nat)
    (h : (Act.pushes ys).getLast? = some v) :
    (Act.pushes (xs ++ ys)).getLast? = some v := by
  rw [Act.pushes_append, List.getLast?_append, h]
  rfl

theorem EndsSynced.of_send {a b : State} (h : Extends a b) (v mode : Nat) :
    EndsSynced a (send b v mode) := by
  obtain ⟨x, hx1, hx2⟩ := h
  refine ⟨x ++ sendActs b v mode, ?_, ?_, ?_, send_bit_map_lt b v mode⟩
  · rw [send_acts, hx1, List.append_assoc]
  · rw [send_trace, hx2, render_append, List.append_assoc]
  · exact pushes_getLast_append _ _ _ (sendActs_getLast b v mode)

theorem EndsSynced.of_shift_out {a b : State} (h : Extends a b) (hb : b.bit_map < 256) :
    EndsSynced a (shift_out b) := by
  obtain ⟨x, hx1, hx2⟩ := h
  refine ⟨x ++ [Act.push b.bit_map], ?_, ?_, ?_, hb⟩
  · show b.acts ++ [Act.push b.bit_map] = _
    rw [hx1, List.append_assoc]
  · show b.trace ++ shift_out_events b.bit_map = _
    rw [hx2, render_append, List.append_assoc]
    simp [render, Act.events]
  · exact pushes_getLast_append _ _ _ rfl

theorem EndsSynced.synced_delay {a b : State} (h : EndsSynced a b) (ms : Nat) :
    EndsSynced a (delay b ms) := by
  obtain ⟨x, hx1, hx2, hx3, hx4⟩ := h
  refine ⟨x ++ [Act.delay ms], ?_, ?_, ?_, hx4⟩
  · show b.acts ++ [Act.delay ms] = _
    rw [hx1, List.append_assoc]
  · show b.trace ++ [Event.delay ms] = _
    rw [hx2, render_append, List.append_assoc]
    simp [render, Act.events]
  · rw [Act.pushes_append]
    simpa [Act.pushes] using hx3

theorem EndsSynced.extends {a b : State} (h : EndsSynced a b) : Extends a b := by
  obtain ⟨x, hx1, hx2, _, _⟩ := h
  exact ⟨x, hx1, hx2⟩

theorem EndsSynced.after {a b c : State} (h : Extends a b) (h2 : EndsSynced b c) :
    EndsSynced a c := by
  obtain ⟨x, hx1, hx2⟩ := h
  obtain ⟨y, hy1, hy2, hy3, hy4⟩ := h2
  refine ⟨x ++ y, ?_, ?_, pushes_getLast_append _ _ _ hy3, hy4⟩
  · rw [hy1, hx1, List.append_assoc]
  · rw [hy2, hx2, render_append, List.append_assoc]

theorem EndsSynced.last_pushed {s t : State} (h : EndsSynced s t) :
    (pushed (t.since s)).getLast? = some t.bit_map := by
  have he := h.extends
  obtain ⟨x, hx1, hx2, hx3, hx4⟩ := h
  rw [he.pushed_eq]
  have e : t.actsSince s = x := by
    unfold State.actsSince
    rw [hx1, List.drop_left]
  rw [e, List.getLast?_map, hx3]
  simp [Nat.mod_eq_of_lt hx4]

theorem Extends.through_sendAll {a b : State} (h : Extends a b) (bs : List (Nat × Nat)) :
    Extends a (sendAll b bs) := by
  induction bs generalizing b with
  | nil => exact h
  | cons x xs ih => exact ih (h.send x.1 x.2)

theorem begin_ends_with_command (b : State) (cols lines dotsize : Nat) :
    ∃ s', Extends b s'
      ∧ begin b cols lines dotsize = command s' ((LCD_ENTRYMODESET ||| s'.displaymode) % 256) := by
  have h := Extends.refl b
  let s1 : State := if lines > 1 then
      { b with displayfunction := (b.displayfunction ||| LCD_2LINE) % 256 }
    else b
  have h1 : Extends b s1 := Extends.ite _ (h.displayfunction _) h
  let s2 : State := { s1 with numlines := lines, currline := 0 }
  have h2 : Extends b s2 := h1.numlines_currline lines 0
  let s3 : State := if dotsize ≠ 0 ∧ lines = 1 then
      { s2 with displayfunction := (s2.displayfunction ||| LCD_5x10DOTS) % 256 }
    else s2
  have h3 : Extends b s3 := Extends.ite _ (h2.displayfunction _) h2
  let s4 : State := Driver.shift_out { Driver.delay s3 100 with
    bit_map := bitWrite (bitWrite 0x00 s3.rs_pin 1) s3.enable_pin 1 }
  have h4 : Extends b s4 := ((h3.delay 100).bit_map _).shift_out
  let s5 : State := Driver.shift_out { s4 with
    bit_map := bitWrite (bitWrite s4.bit_map s4.rs_pin 0) s4.enable_pin 0 }
  have h5 : Extends b s5 := (h4.bit_map _).shift_out
  let s6 : State :=
    if s5.displayfunction &&& LCD_8BITMODE = 0 then
      Driver.write4bits (Driver.delay (Driver.write4bits (Driver.delay (Driver.write4bits
        (Driver.delay (Driver.write4bits s5 0x03) 5) 0x03) 5) 0x03) 1) 0x02
    else
      Driver.command (Driver.delay (Driver.command (Driver.delay
        (Driver.command s5 ((LCD_FUNCTIONSET ||| s5.displayfunction) % 256)) 5)
        ((LCD_FUNCTIONSET ||| s5.displayfunction) % 256)) 1)
        ((LCD_FUNCTIONSET ||| s5.displayfunction) % 256)
  have h6 : Extends b s6 := Extends.ite _
    (((((((h5.write4bits 0x03).delay 5).write4bits 0x03).delay 5).write4bits 0x03).delay
      1).write4bits 0x02)
    (((((h5.command _).delay 5).command _).delay 1).command _)
  have h7 : Extends b (Driver.command s6 ((LCD_FUNCTIONSET ||| s6.displayfunction) % 256)) :=
    h6.command _
  have h8 := ((h7.displaycontrol
    ((LCD_DISPLAYON ||| LCD_CURSOROFF ||| LCD_BLINKOFF) % 256)).display).clear
  exact ⟨_, h8.displaymode ((LCD_ENTRYLEFT ||| LCD_ENTRYSHIFTDECREMENT) % 256), rfl⟩

theorem Op.apply_endsSynced (op : Op) (s t : State) (h : op.apply s = some t) :
    EndsSynced s t := by
  have r := Extends.refl s
  cases op with
  | begin cols lines dotsize =>
    obtain ⟨s', hs', he⟩ := begin_ends_with_command s cols lines dotsize
    have ht : t = Driver.begin s cols lines dotsize := by
      simpa [Op.apply] using h.symm
    rw [ht, he]
    exact EndsSynced.of_send hs' _ _
  | clear =>
    have ht : t = Driver.clear s := by simpa [Op.apply] using h.symm
    rw [ht]; exact (EndsSynced.of_send r _ _).synced_delay 2
  | home =>
    have ht : t = Driver.home s := by simpa [Op.apply] using h.symm
    rw [ht]; exact (EndsSynced.of_send r _ _).synced_delay 2
  | setCursor col row =>
    simp only [Op.apply, Driver.setCursor] at h
    split at h
    · exact absurd h (by simp)
    · have ht : t = _ := (Option.some.inj h).symm
      rw [ht]; exact EndsSynced.of_send r _ _
  | noDisplay =>
    have ht : t = Driver.noDisplay s := by simpa [Op.apply] using h.symm
    rw [ht]; exact EndsSynced.of_send (r.displaycontrol _) _ _
  | display =>
    have ht : t = Driver.display s := by simpa [Op.apply] using h.symm
    rw [ht]; exact EndsSynced.of_send (r.displaycontrol _) _ _
  | noCursor =>
    have ht : t = Driver.noCursor s := by simpa [Op.apply] using h.symm
    rw [ht]; exact EndsSynced.of_send (r.displaycontrol _) _ _
  | cursor =>
    have ht : t = Driver.cursor s := by simpa [Op.apply] using h.symm
    rw [ht]; exact EndsSynced.of_send (r.displaycontrol _) _ _
  | noBlink =>
    have ht : t = Driver.noBlink s := by simpa [Op.apply] using h.symm
    rw [ht]; exact EndsSynced.of_send (r.displaycontrol _) _ _
  | blink =>
    have ht : t = Driver.blink s := by simpa [Op.apply] using h.symm
    rw [ht]; exact EndsSynced.of_send (r.displaycontrol _) _ _
  | scrollDisplayLeft =>
    have ht : t = Driver.scrollDisplayLeft s := by simpa [Op.apply] using h.symm
    rw [ht]; exact EndsSynced.of_send r _ _
  | scrollDisplayRight =>
    have ht : t = Driver.scrollDisplayRight s := by simpa [Op.apply] using h.symm
    rw [ht]; exact EndsSynced.of_send r _ _
  | leftToRight =>
    have ht : t = Driver.leftToRight s := by simpa [Op.apply] using h.symm
    rw [ht]; exact EndsSynced.of_send (r.displaymode _) _ _
  | rightToLeft =>
    have ht : t = Driver.rightToLeft s := by simpa [Op.apply] using h.symm
    rw [ht]; exact EndsSynced.of_send (r.displaymode _) _ _
  | autoscroll =>
    have ht : t = Driver.autoscroll s := by simpa [Op.apply] using h.symm
    rw [ht]; exact EndsSynced.of_send (r.displaymode _) _ _
  | noAutoscroll =>
    have ht : t = Driver.noAutoscroll s := by simpa [Op.apply] using h.symm
    rw [ht]; exact EndsSynced.of_send (r.displaymode _) _ _
  | createChar location charmap =>
    have ht : t = Driver.createChar s location charmap := by simpa [Op.apply] using h.symm
    rw [ht]
    exact EndsSynced.of_send (r.through_sendAll
      [ ((LCD_SETCGRAMADDR ||| ((location &&& 0x7) <<< 3)) % 256, LOW),
        (charmap 0, HIGH), (charmap 1, HIGH), (charmap 2, HIGH), (charmap 3, HIGH),
        (charmap 4, HIGH), (charmap 5, HIGH), (charmap 6, HIGH) ]) (charmap 7) HIGH
  | command value =>
    have ht : t = Driver.command s value := by simpa [Op.apply] using h.symm
    rw [ht]; exact EndsSynced.of_send r _ _
  | write value =>
    have ht : t = (Driver.write s value).1 := by simpa [Op.apply] using h.symm
    rw [ht]; exact EndsSynced.of_send r _ _
  | ledOn =>
    have ht : t = Driver.ledOn s := by simpa [Op.apply] using h.symm
    rw [ht]; exact EndsSynced.of_shift_out (r.bit_map _) (by dsimp only; exact bitWrite_lt _ _ _)
  | ledOff =>
    have ht : t = Driver.ledOff s := by simpa [Op.apply] using h.symm
    rw [ht]; exact EndsSynced.of_shift_out (r.bit_map _) (by dsimp only; exact bitWrite_lt _ _ _)

/-! ## Bits that `send` leaves alone -/

theorem sendActs_untouched (s : State) (v mode k : Nat) (hu : Untouched k s) :
    (∀ p ∈ Act.pushes (sendActs s v mode), bitAt p k = bitAt s.bit_map k)
      ∧ bitAt (send s v mode).bit_map k = bitAt s.bit_map k := by
  obtain ⟨hk, hrs, hen, hd⟩ := hu
  have d0 := hd 0
  have d1 := hd 1
  have d2 := hd 2
  have d3 := hd 3
  constructor
  · intro p hp
    simp only [sendActs, write4bitsActs, pulseEnableActs, Act.pushes, List.cons_append,
      List.nil_append, List.mem_cons, List.mem_singleton, List.not_mem_nil, or_false,
      setDataBits_eq, write4bits_bit_map, write4bits_enable_pin, write4bits_data_pins,
      shift_out, State.emit] at hp
    rcases hp with h | h | h | h | h | h | h | h | h <;> rw [h] <;>
      simp only [bitAt_bitWrite, hk, hrs, hen, d0, d1, d2, d3, if_true, if_false]
  · rw [send_bit_map]
    simp only [setDataBits_eq, bitAt_bitWrite, hk, hrs, hen, d0, d1, d2, d3, if_true, if_false]

theorem Keeps.keeps_refl (k : Nat) (s : State) : Keeps k s s :=
  ⟨[], by simp, by simp [render_nil], by simp [Act.pushes], rfl⟩

theorem Keeps.keeps_of_eq {k : Nat} {a b : State} (c : State) (h : Keeps k a b)
    (h1 : c.acts = b.acts) (h2 : c.trace = b.trace) (h3 : c.bit_map = b.bit_map) :
    Keeps k a c := by
  obtain ⟨x, hx1, hx2, hx3, hx4⟩ := h
  exact ⟨x, by rw [h1, hx1], by rw [h2, hx2], hx3, by rw [h3, hx4]⟩

theorem Keeps.keeps_send {k : Nat} {a b : State} (h : Keeps k a b) (hu : Untouched k b)
    (v mode : Nat) : Keeps k a (send b v mode) := by
  obtain ⟨x, hx1, hx2, hx3, hx4⟩ := h
  obtain ⟨hs1, hs2⟩ := sendActs_untouched b v mode k hu
  refine ⟨x ++ sendActs b v mode, ?_, ?_, ?_, by rw [hs2, hx4]⟩
  · rw [send_acts, hx1, List.append_assoc]
  · rw [send_trace, hx2, render_append, List.append_assoc]
  · intro p hp
    rw [Act.pushes_append, List.mem_append] at hp
    rcases hp with hp | hp
    · exact hx3 p hp
    · exact ⟨sendActs_lt b v mode p hp, by rw [hs1 p hp, hx4]⟩

theorem Keeps.keeps_delay {k : Nat} {a b : State} (h : Keeps k a b) (ms : Nat) :
    Keeps k a (delay b ms) := by
  obtain ⟨x, hx1, hx2, hx3, hx4⟩ := h
  refine ⟨x ++ [Act.delay ms], ?_, ?_, ?_, hx4⟩
  · show b.acts ++ [Act.delay ms] = _
    rw [hx1, List.append_assoc]
  · show b.trace ++ [Event.delay ms] = _
    rw [hx2, render_append, List.append_assoc]
    simp [render, Act.events]
  · intro p hp
    rw [Act.pushes_append] at hp
    exact hx3 p (by simpa [Act.pushes] using hp)

theorem Keeps.keeps_sendAll {k : Nat} {a b : State} (h : Keeps k a b) (hu : Untouched k b)
    (bs : List (Nat × Nat)) : Keeps k a (sendAll b bs) := by
  induction bs generalizing b with
  | nil => exact h
  | cons x xs ih => exact ih (h.keeps_send hu x.1 x.2) hu

theorem Keeps.pushed_bits {k : Nat} {s t : State} (h : Keeps k s t) :
    (∀ p ∈ pushed (t.since s), bitAt p k = bitAt s.bit_map k)
      ∧ bitAt t.bit_map k = bitAt s.bit_map k := by
  obtain ⟨x, hx1, hx2, hx3, hx4⟩ := h
  refine ⟨?_, hx4⟩
  intro p hp
  rw [since_append _ _ _ hx2, pushed_render _ (fun v hv => (hx3 v hv).1)] at hp
  exact (hx3 p hp).2

theorem DefaultPinMap.untouched (s : State) (h : DefaultPinMap s) :
    Untouched 2 s ∧ Untouched 0 s := by
  obtain ⟨h1, h2, h3, h4, h5, h6, h7⟩ := h
  have hd2 : ∀ i : Fin 4, s.data_pins i ≠ 2 := by
    intro i
    fin_cases i
    · show s.data_pins 0 ≠ 2; omega
    · show s.data_pins 1 ≠ 2; omega
    · show s.data_pins 2 ≠ 2; omega
    · show s.data_pins 3 ≠ 2; omega
  have hd0 : ∀ i : Fin 4, s.data_pins i ≠ 0 := by
    intro i
    fin_cases i
    · show s.data_pins 0 ≠ 0; omega
    · show s.data_pins 1 ≠ 0; omega
    · show s.data_pins 2 ≠ 0; omega
    · show s.data_pins 3 ≠ 0; omega
  exact ⟨⟨by decide, by omega, by omega, hd2⟩, ⟨by decide, by omega, by omega, hd0⟩⟩

theorem Keeps.keeps_displaycontrol {k : Nat} {a b : State} (h : Keeps k a b) (x : Nat) :
    Keeps k a { b with displaycontrol := x } := h.keeps_of_eq _ rfl rfl rfl

theorem Keeps.keeps_displaymode {k : Nat} {a b : State} (h : Keeps k a b) (x : Nat) :
    Keeps k a { b with displaymode := x } := h.keeps_of_eq _ rfl rfl rfl

theorem Keeps.send_displaycontrol (k : Nat) (s : State) (hu : Untouched k s) (x v : Nat) :
    Keeps k s (Driver.send { s with displaycontrol := x } v LOW) :=
  Keeps.keeps_send (show Keeps k s { s with displaycontrol := x } from (Keeps.keeps_refl k s).keeps_displaycontrol x)
    (show Untouched k { s with displaycontrol := x } from hu) v LOW

theorem Keeps.send_displaymode (k : Nat) (s : State) (hu : Untouched k s) (x v : Nat) :
    Keeps k s (Driver.send { s with displaymode := x } v LOW) :=
  Keeps.keeps_send (show Keeps k s { s with displaymode := x } from (Keeps.keeps_refl k s).keeps_displaymode x)
    (show Untouched k { s with displaymode := x } from hu) v LOW

theorem Op.apply_keeps (k : Nat) (op : Op) (s t : State) (hv : op.viaSend)
    (hu : Untouched k s) (h : op.apply s = some t) : Keeps k s t := by
  have r := Keeps.keeps_refl k s
  cases op with
  | begin cols lines dotsize => exact absurd hv (by simp [Op.viaSend])
  | ledOn => exact absurd hv (by simp [Op.viaSend])
  | ledOff => exact absurd hv (by simp [Op.viaSend])
  | clear =>
    have ht : t = Driver.clear s := by simpa [Op.apply] using h.symm
    rw [ht]; exact (r.keeps_send hu _ _).keeps_delay 2
  | home =>
    have ht : t = Driver.home s := by simpa [Op.apply] using h.symm
    rw [ht]; exact (r.keeps_send hu _ _).keeps_delay 2
  | setCursor col row =>
    simp only [Op.apply, Driver.setCursor] at h
    split at h
    · exact absurd h (by simp)
    · have ht : t = _ := (Option.some.inj h).symm
      rw [ht]; exact r.keeps_send hu _ _
  | noDisplay =>
    have ht : t = Driver.noDisplay s := by simpa [Op.apply] using h.symm
    have e : Driver.noDisplay s = Driver.send { s with displaycontrol := andNot8 s.displaycontrol LCD_DISPLAYON }
        ((LCD_DISPLAYCONTROL ||| (andNot8 s.displaycontrol LCD_DISPLAYON)) % 256) LOW := rfl
    rw [ht, e]; exact Keeps.send_displaycontrol k s hu _ _
  | display =>
    have ht : t = Driver.display s := by simpa [Op.apply] using h.symm
    have e : Driver.display s = Driver.send { s with displaycontrol := (s.displaycontrol ||| LCD_DISPLAYON) % 256 }
        ((LCD_DISPLAYCONTROL ||| ((s.displaycontrol ||| LCD_DISPLAYON) % 256)) % 256) LOW := rfl
    rw [ht, e]; exact Keeps.send_displaycontrol k s hu _ _
  | noCursor =>
    have ht : t = Driver.noCursor s := by simpa [Op.apply] using h.symm
    have e : Driver.noCursor s = Driver.send { s with displaycontrol := andNot8 s.displaycontrol LCD_CURSORON }
        ((LCD_DISPLAYCONTROL ||| (andNot8 s.displaycontrol LCD_CURSORON)) % 256) LOW := rfl
    rw [ht, e]; exact Keeps.send_displaycontrol k s hu _ _
  | cursor =>
    have ht : t = Driver.cursor s := by simpa [Op.apply] using h.symm
    have e : Driver.cursor s = Driver.send { s with displaycontrol := (s.displaycontrol ||| LCD_CURSORON) % 256 }
        ((LCD_DISPLAYCONTROL ||| ((s.displaycontrol ||| LCD_CURSORON) % 256)) % 256) LOW := rfl
    rw [ht, e]; exact Keeps.send_displaycontrol k s hu _ _
  | noBlink =>
    have ht : t = Driver.noBlink s := by simpa [Op.apply] using h.symm
    have e : Driver.noBlink s = Driver.send { s with displaycontrol := andNot8 s.displaycontrol LCD_BLINKON }
        ((LCD_DISPLAYCONTROL ||| (andNot8 s.displaycontrol LCD_BLINKON)) % 256) LOW := rfl
    rw [ht, e]; exact Keeps.send_displaycontrol k s hu _ _
  | blink =>
    have ht : t = Driver.blink s := by simpa [Op.apply] using h.symm
    have e : Driver.blink s = Driver.send { s with displaycontrol := (s.displaycontrol ||| LCD_BLINKON) % 256 }
        ((LCD_DISPLAYCONTROL ||| ((s.displaycontrol ||| LCD_BLINKON) % 256)) % 256) LOW := rfl
    rw [ht, e]; exact Keeps.send_displaycontrol k s hu _ _
  | leftToRight =>
    have ht : t = Driver.leftToRight s := by simpa [Op.apply] using h.symm
    have e : Driver.leftToRight s = Driver.send { s with displaymode := (s.displaymode ||| LCD_ENTRYLEFT) % 256 }
        ((LCD_ENTRYMODESET ||| ((s.displaymode ||| LCD_ENTRYLEFT) % 256)) % 256) LOW := rfl
    rw [ht, e]; exact Keeps.send_displaymode k s hu _ _
  | rightToLeft =>
    have ht : t = Driver.rightToLeft s := by simpa [Op.apply] using h.symm
    have e : Driver.rightToLeft s = Driver.send { s with displaymode := andNot8 s.displaymode LCD_ENTRYLEFT }
        ((LCD_ENTRYMODESET ||| (andNot8 s.displaymode LCD_ENTRYLEFT)) % 256) LOW := rfl
    rw [ht, e]; exact Keeps.send_displaymode k s hu _ _
  | autoscroll =>
    have ht : t = Driver.autoscroll s := by simpa [Op.apply] using h.symm
    have e : Driver.autoscroll s = Driver.send { s with displaymode := (s.displaymode ||| LCD_ENTRYSHIFTINCREMENT) % 256 }
        ((LCD_ENTRYMODESET ||| ((s.displaymode ||| LCD_ENTRYSHIFTINCREMENT) % 256)) % 256) LOW := rfl
    rw [ht, e]; exact Keeps.send_displaymode k s hu _ _
  | noAutoscroll =>
    have ht : t = Driver.noAutoscroll s := by simpa [Op.apply] using h.symm
    have e : Driver.noAutoscroll s = Driver.send { s with displaymode := andNot8 s.displaymode LCD_ENTRYSHIFTINCREMENT }
        ((LCD_ENTRYMODESET ||| (andNot8 s.displaymode LCD_ENTRYSHIFTINCREMENT)) % 256) LOW := rfl
    rw [ht, e]; exact Keeps.send_displaymode k s hu _ _
  | scrollDisplayLeft =>
    have ht : t = Driver.scrollDisplayLeft s := by simpa [Op.apply] using h.symm
    rw [ht]; exact r.keeps_send hu _ _
  | scrollDisplayRight =>
    have ht : t = Driver.scrollDisplayRight s := by simpa [Op.apply] using h.symm
    rw [ht]; exact r.keeps_send hu _ _
  | createChar location charmap =>
    have ht : t = Driver.createChar s location charmap := by simpa [Op.apply] using h.symm
    rw [ht, createChar_eq_sendAll]
    exact r.keeps_sendAll hu _
  | command value =>
    have ht : t = Driver.command s value := by simpa [Op.apply] using h.symm
    rw [ht]; exact r.keeps_send hu _ _
  | write value =>
    have ht : t = (Driver.write s value).1 := by simpa [Op.apply] using h.symm
    rw [ht]; exact r.keeps_send hu _ _

/-! ## The parts of `begin`, put together -/

theorem begin_eq_parts (s : State) (cols lines dotsize : Nat) :
    begin s cols lines dotsize =
      beginEpilogue
        (if (beginPrologue s lines dotsize).displayfunction &&& LCD_8BITMODE = 0 then
          beginNibbles (beginPrologue s lines dotsize)
        else beginBytes (beginPrologue s lines dotsize)) := rfl

theorem beginPrologue_displayfunction (s : State) (lines dotsize : Nat) :
    (beginPrologue s lines dotsize).displayfunction =
      if dotsize ≠ 0 ∧ lines = 1 then
        ((if lines > 1 then (s.displayfunction ||| LCD_2LINE) % 256 else s.displayfunction)
          ||| LCD_5x10DOTS) % 256
      else if lines > 1 then (s.displayfunction ||| LCD_2LINE) % 256 else s.displayfunction := by
  unfold beginPrologue
  by_cases h1 : lines > 1 <;> by_cases h2 : dotsize ≠ 0 ∧ lines = 1
  · simp only [if_pos h1, if_pos h2]; rfl
  · simp only [if_pos h1, if_neg h2]; rfl
  · simp only [if_neg h1, if_pos h2]; rfl
  · simp only [if_neg h1, if_neg h2]; rfl

theorem beginNibbles_displayfunction (s : State) :
    (beginNibbles s).displayfunction = s.displayfunction := rfl

theorem beginBytes_displayfunction (s : State) :
    (beginBytes s).displayfunction = s.displayfunction := rfl

theorem beginEpilogue_fields (s : State) :
    (beginEpilogue s).displayfunction = s.displayfunction
      ∧ (beginEpilogue s).displaycontrol = LCD_DISPLAYON
      ∧ (beginEpilogue s).displaymode = LCD_ENTRYLEFT
      ∧ (beginEpilogue s).numlines = s.numlines := by
  refine ⟨rfl, ?_, ?_, rfl⟩
  · show ((LCD_DISPLAYON ||| LCD_CURSOROFF ||| LCD_BLINKOFF) % 256 ||| LCD_DISPLAYON) % 256
      = LCD_DISPLAYON
    decide
  · show (LCD_ENTRYLEFT ||| LCD_ENTRYSHIFTDECREMENT) % 256 = LCD_ENTRYLEFT
    decide

theorem begin_displayfunction (s : State) (cols lines dotsize : Nat) :
    (begin s cols lines dotsize).displayfunction
      = (beginPrologue s lines dotsize).displayfunction := by
  rw [begin_eq_parts, (beginEpilogue_fields _).1]
  split
  · rfl
  · rfl

theorem beginPrologue_numlines (s : State) (lines dotsize : Nat) :
    (beginPrologue s lines dotsize).numlines = lines := by
  unfold beginPrologue
  by_cases h2 : dotsize ≠ 0 ∧ lines = 1
  · simp only [if_pos h2]; rfl
  · simp only [if_neg h2]; rfl

theorem begin_pushed (s : State) (cols lines dotsize : Nat) :
    pushed ((begin s cols lines dotsize).since s)
      = (Act.pushes ((begin s cols lines dotsize).actsSince s)).map (fun v => v % 256) :=
  ((Extends.refl s).begin cols lines dotsize).pushed_eq

/-- C11, failing input.  Construct the driver, call `begin(16, 2, 0)` and then
`begin(16, 1, 0)`: the second call asks for one line, yet the function flags
it sends still carry the 2-line flag, `0x20 | 0x08 = 0x28` (the controller
latches the nibbles 2 and 8 after the negotiation nibbles 3, 3, 3, 2).
Likewise after `begin(16, 1, 1)` the call `begin(16, 1, 0)` asks for the 5x8
font and sends the 5x10 flag, `0x24`. -/
theorem begin_again_sends_stale_flags :
    (beginPrologue (begin (LiquidCrypstal 0 0 0) 16 2 0) 1 0).displayfunction = LCD_2LINE
    ∧ begin (begin (LiquidCrypstal 0 0 0) 16 2 0) 16 1 0
        = beginEpilogue
            (beginNibbles (beginPrologue (begin (LiquidCrypstal 0 0 0) 16 2 0) 1 0))
    ∧ (LCD_FUNCTIONSET
          ||| (beginPrologue (begin (LiquidCrypstal 0 0 0) 16 2 0) 1 0).displayfunction) % 256
        = 0x28
    ∧ lcdNibbles (begin (LiquidCrypstal 0 0 0) 16 2 0)
          (begin (LiquidCrypstal 0 0 0) 16 2 0).bit_map
          (pushed ((begin (begin (LiquidCrypstal 0 0 0) 16 2 0) 16 1 0).since
            (begin (LiquidCrypstal 0 0 0) 16 2 0)))
        = [(0, 0), (0, 3), (0, 3), (0, 3), (0, 2), (0, 2), (0, 8), (0, 0), (0, 0xC),
            (0, 0), (0, 1), (0, 0), (0, 6)]
    ∧ (LCD_FUNCTIONSET
          ||| (beginPrologue (begin (LiquidCrypstal 0 0 0) 16 1 1) 1 0).displayfunction) % 256
        = 0x24 := by
  have h8 : (beginPrologue (begin (LiquidCrypstal 0 0 0) 16 2 0) 1 0).displayfunction
      &&& LCD_8BITMODE = 0 := by decide!
  refine ⟨by decide!, ?_, by decide!, ?_, by decide!⟩
  · rw [begin_eq_parts, if_pos h8]
  · rw [begin_pushed]
    decide!

/-- C12.  For every prior state and every argument triple, after
`begin(cols, lines, dotsize)` the display-control flags are exactly
`LCD_DISPLAYON` (cursor and blink off), the entry-mode flags are exactly
`LCD_ENTRYLEFT` (no autoscroll), and the stored line count is `lines`. -/
theorem begin_resets_control_and_mode (s : State) (cols lines dotsize : Nat) :
    (begin s cols lines dotsize).displaycontrol = LCD_DISPLAYON
    ∧ (begin s cols lines dotsize).displaycontrol &&& LCD_CURSORON = 0
    ∧ (begin s cols lines dotsize).displaycontrol &&& LCD_BLINKON = 0
    ∧ (begin s cols lines dotsize).displaymode = LCD_ENTRYLEFT
    ∧ (begin s cols lines dotsize).displaymode &&& LCD_ENTRYSHIFTINCREMENT = 0
    ∧ (begin s cols lines dotsize).numlines = lines := by
  have hc : (begin s cols lines dotsize).displaycontrol = LCD_DISPLAYON := by
    rw [begin_eq_parts]; exact (beginEpilogue_fields _).2.1
  have hm : (begin s cols lines dotsize).displaymode = LCD_ENTRYLEFT := by
    rw [begin_eq_parts]; exact (beginEpilogue_fields _).2.2.1
  have hn : (begin s cols lines dotsize).numlines = lines := by
    rw [begin_eq_parts, (beginEpilogue_fields _).2.2.2]
    split
    · exact beginPrologue_numlines s lines dotsize
    · exact beginPrologue_numlines s lines dotsize
  refine ⟨hc, ?_, ?_, hm, ?_, hn⟩
  · rw [hc]; decide
  · rw [hc]; decide
  · rw [hm]; decide

theorem constructed_endsSynced (data clock latch : Nat) :
    EndsSynced State.fresh (LiquidCrypstal data clock latch) := by
  have h0 : Extends State.fresh
      ((((State.fresh.emit (Act.pinMode Wire.data) [Event.pinMode Wire.data]).emit
        (Act.pinMode Wire.clock) [Event.pinMode Wire.clock]).emit
        (Act.pinMode Wire.latch) [Event.pinMode Wire.latch])) :=
    (((Extends.refl State.fresh).emit (Act.pinMode Wire.data)).emit
      (Act.pinMode Wire.clock)).emit (Act.pinMode Wire.latch)
  have h1 := (h0.bit_map 0x00).of_eq
    { (((State.fresh.emit (Act.pinMode Wire.data) [Event.pinMode Wire.data]).emit
        (Act.pinMode Wire.clock) [Event.pinMode Wire.clock]).emit
        (Act.pinMode Wire.latch) [Event.pinMode Wire.latch]) with
      led_pin := 2, rs_pin := 1, enable_pin := 3,
      data_pins := fun i =>
        if i.val = 0 then 4 else if i.val = 1 then 5 else if i.val = 2 then 6 else 7,
      displayfunction := (LCD_4BITMODE ||| LCD_1LINE ||| LCD_5x8DOTS) % 256,
      bit_map := 0x00 } rfl rfl
  obtain ⟨s', hs', he⟩ := begin_ends_with_command _ 16 1 LCD_5x8DOTS
  have e : LiquidCrypstal data clock latch = command s' ((LCD_ENTRYMODESET ||| s'.displaymode) % 256) :=
    he
  rw [e]
  exact EndsSynced.of_send (h1.trans hs') _ _

theorem reachable_endsSynced (s : State) (h : Reachable s) : EndsSynced State.fresh s := by
  induction h with
  | construct data clock latch => exact constructed_endsSynced data clock latch
  | step op a b _ _ hab ih => exact EndsSynced.after ih.extends (Op.apply_endsSynced op a b hab)

/-- C13.  In every state reached by constructing the driver and calling any
sequence of public operations, the shadow register is an 8-bit value equal to
the last byte latched onto the register outputs over the whole trace; and
each operation by itself, from any state at all, ends by pushing the shadow
value it leaves. -/
theorem shadow_equals_last_pushed (s : State) (h : Reachable s) :
    (pushed s.trace).getLast? = some s.bit_map
    ∧ s.bit_map < 256
    ∧ (∀ (a : State) (op : Op) (t : State), op.apply a = some t →
        (pushed (t.since a)).getLast? = some t.bit_map) := by
  have hs := reachable_endsSynced s h
  refine ⟨hs.last_pushed, ?_, ?_⟩
  · obtain ⟨_, _, _, _, h4⟩ := hs
    exact h4
  · intro a op t hop
    exact (Op.apply_endsSynced op a t hop).last_pushed

/-- C13, witness: construct the driver, then `ledOff()`; the last byte latched
is the shadow value `0x64`. -/
theorem shadow_equals_last_pushed_witness :
    Reachable (ledOff (LiquidCrypstal 0 0 0))
    ∧ (pushed (ledOff (LiquidCrypstal 0 0 0)).trace).getLast?
        = some (ledOff (LiquidCrypstal 0 0 0)).bit_map
    ∧ (ledOff (LiquidCrypstal 0 0 0)).bit_map = 0x64 :=
  have hr : Reachable (ledOff (LiquidCrypstal 0 0 0)) :=
    Reachable.step Op.ledOff (LiquidCrypstal 0 0 0) _ (Reachable.construct 0 0 0) trivial rfl
  ⟨hr, (shadow_equals_last_pushed _ hr).1, by decide!⟩

theorem testBit_of_lt_256 (m i : Nat) (hm : m < 256) (hi : ¬ i < 8) : m.testBit i = false := by
  apply Nat.testBit_lt_two_pow
  calc m < 256 := hm
    _ = 2 ^ 8 := by norm_num
    _ ≤ 2 ^ i := Nat.pow_le_pow_right (by norm_num) (by omega)

theorem testBit_bitWrite_byte (m b x i : Nat) (hm : m < 256) (hb : b < 8) :
    (bitWrite m b x).testBit i = (if i = b then decide (x ≠ 0) else m.testBit i) := by
  rw [testBit_bitWrite]
  by_cases h8 : i < 8
  · by_cases hib : i = b
    · subst hib; simp [h8]
    · have : ¬ b = i := fun h => hib h.symm
      simp [h8, hib, this]
  · have hib : ¬ i = b := by omega
    have : ¬ b = i := fun h => hib h.symm
    simp [h8, hib, this, testBit_of_lt_256 m i hm h8]

theorem bitWrite_bitWrite (m b x y : Nat) : bitWrite (bitWrite m b x) b y = bitWrite m b y := by
  apply Nat.eq_of_testBit_eq
  intro i
  simp only [testBit_bitWrite]
  by_cases h8 : i < 8 <;> by_cases hb : b = i <;> simp [h8, hb]

theorem pulseEnable_acts (s : State) :
    (pulseEnable s).acts = s.acts ++ pulseEnableActs s.enable_pin s.bit_map := by
  simp [pulseEnable, shift_out, delayMicroseconds, State.emit, pulseEnableActs,
    List.append_assoc]

/-- C14.  For every 8-bit shadow value and an enable index within 0..7,
`pulseEnable()` makes exactly three pushes: the shadow with the enable bit 0,
then with it 1, then with it 0 again, every other bit as in the starting
shadow; the waits after the three pushes are 1 us, 1 us and 50 us; and the
shadow ends as the starting value with the enable bit cleared. -/
theorem pulseEnable_three_pushes (s : State) (hen : s.enable_pin < 8) (hs : s.bit_map < 256) :
    ∃ lo hi,
      (∀ i, lo.testBit i = (if i = s.enable_pin then false else s.bit_map.testBit i))
      ∧ (∀ i, hi.testBit i = (if i = s.enable_pin then true else s.bit_map.testBit i))
      ∧ (pulseEnable s).actsSince s
          = [ Act.push lo, Act.delayMicroseconds 1, Act.push hi, Act.delayMicroseconds 1,
              Act.push lo, Act.delayMicroseconds 50 ]
      ∧ (pulseEnable s).since s
          = render [ Act.push lo, Act.delayMicroseconds 1, Act.push hi, Act.delayMicroseconds 1,
              Act.push lo, Act.delayMicroseconds 50 ]
      ∧ pushed ((pulseEnable s).since s) = [lo, hi, lo]
      ∧ (pulseEnable s).bit_map = lo := by
  have e3 : bitWrite (bitWrite (bitWrite s.bit_map s.enable_pin LOW) s.enable_pin HIGH)
      s.enable_pin LOW = bitWrite s.bit_map s.enable_pin LOW := by
    rw [bitWrite_bitWrite, bitWrite_bitWrite]
  have hacts : pulseEnableActs s.enable_pin s.bit_map
      = [ Act.push (bitWrite s.bit_map s.enable_pin LOW), Act.delayMicroseconds 1,
          Act.push (bitWrite (bitWrite s.bit_map s.enable_pin LOW) s.enable_pin HIGH),
          Act.delayMicroseconds 1,
          Act.push (bitWrite s.bit_map s.enable_pin LOW), Act.delayMicroseconds 50 ] := by
    unfold pulseEnableActs
    rw [e3]
  have hsince : (pulseEnable s).since s = render (pulseEnableActs s.enable_pin s.bit_map) :=
    since_append _ _ _ (pulseEnable_trace s)
  refine ⟨bitWrite s.bit_map s.enable_pin LOW,
    bitWrite (bitWrite s.bit_map s.enable_pin LOW) s.enable_pin HIGH, ?_, ?_, ?_, ?_, ?_, ?_⟩
  · intro i
    rw [testBit_bitWrite_byte _ _ _ _ hs hen]
    simp [LOW]
  · intro i
    rw [bitWrite_bitWrite, testBit_bitWrite_byte _ _ _ _ hs hen]
    simp [HIGH]
  · unfold State.actsSince
    rw [pulseEnable_acts, List.drop_left, hacts]
  · rw [hsince, hacts]
  · rw [hsince, hacts, pushed_render]
    · rfl
    · intro v hv
      simp only [Act.pushes, List.mem_cons, List.mem_singleton, List.not_mem_nil, or_false] at hv
      rcases hv with h | h | h <;> rw [h] <;> exact bitWrite_lt _ _ _
  · exact e3

/-- C14, witness: the default pin map (enable on bit 3) and shadow `0x60`. -/
theorem pulseEnable_three_pushes_witness :
    ∃ lo hi, pushed ((pulseEnable (State.sample 0x60)).since (State.sample 0x60)) = [lo, hi, lo]
      ∧ (pulseEnable (State.sample 0x60)).bit_map = lo := by
  obtain ⟨lo, hi, _, _, _, _, h5, h6⟩ :=
    pulseEnable_three_pushes (State.sample 0x60) (by decide) (by decide)
  exact ⟨lo, hi, h5, h6⟩

theorem write4bits_acts (s : State) (v : Nat) :
    (write4bits s v).acts = s.acts ++ write4bitsActs s v := by
  simp [write4bits, pulseEnable, shift_out, delayMicroseconds, State.emit, write4bitsActs,
    pulseEnableActs, List.append_assoc]

theorem bitAt_mod16 (v : Nat) :
    bitAt (v % 16) 0 = bitAt v 0 ∧ bitAt (v % 16) 1 = bitAt v 1
      ∧ bitAt (v % 16) 2 = bitAt v 2 ∧ bitAt (v % 16) 3 = bitAt v 3 := by
  simp only [bitAt_eq_div]
  norm_num
  omega

theorem setDataBits_mod16 (pins : Fin 4 → Nat) (bm v : Nat) :
    setDataBits pins bm (v % 16) = setDataBits pins bm v := by
  obtain ⟨h0, h1, h2, h3⟩ := bitAt_mod16 v
  unfold bitAt at h0 h1 h2 h3
  rw [setDataBits_eq, setDataBits_eq, h0, h1, h2, h3]

theorem setDataBits_bits (pins : Fin 4 → Nat) (bm v : Nat) (hd : Function.Injective pins)
    (hlt : ∀ i, pins i < 8) :
    (∀ i : Fin 4, bitAt (setDataBits pins bm v) (pins i) = bitAt v i.val)
      ∧ (∀ k, k < 8 → (∀ i, pins i ≠ k) → bitAt (setDataBits pins bm v) k = bitAt bm k) := by
  have n01 : pins 0 ≠ pins 1 := hd.ne (by decide)
  have n02 : pins 0 ≠ pins 2 := hd.ne (by decide)
  have n03 : pins 0 ≠ pins 3 := hd.ne (by decide)
  have n12 : pins 1 ≠ pins 2 := hd.ne (by decide)
  have n13 : pins 1 ≠ pins 3 := hd.ne (by decide)
  have n23 : pins 2 ≠ pins 3 := hd.ne (by decide)
  have l0 := hlt 0
  have l1 := hlt 1
  have l2 := hlt 2
  have l3 := hlt 3
  constructor
  · intro i
    rw [setDataBits_eq]
    fin_cases i
    · show bitAt _ (pins 0) = bitAt v 0
      simp only [bitAt_bitWrite, l0, n01.symm, n02.symm, n03.symm, if_true, if_false, level_bitAt]
    · show bitAt _ (pins 1) = bitAt v 1
      simp only [bitAt_bitWrite, l1, n12.symm, n13.symm, if_true, if_false, level_bitAt]
    · show bitAt _ (pins 2) = bitAt v 2
      simp only [bitAt_bitWrite, l2, n23.symm, if_true, if_false, level_bitAt]
    · show bitAt _ (pins 3) = bitAt v 3
      simp only [bitAt_bitWrite, l3, if_true, if_false, level_bitAt]
  · intro k hk hne
    rw [setDataBits_eq]
    simp only [bitAt_bitWrite, hk, hne 0, hne 1, hne 2, hne 3, if_true, if_false]

/-- C15.  For every value `v`, every shadow value and every pin map whose
four data-line indices are distinct, within 0..7 and different from the
enable index, `write4bits(v)` writes bit `i` of `v` to shadow bit
`dataPin[i]` for `i = 0..3` and nothing else (bits 4..7 of `v` play no part),
pushes the register exactly once with those data bits, then runs one
`pulseEnable`; afterwards the data-line bits still hold the nibble and every
shadow bit other than the data-line bits and the enable bit is as before. -/
theorem write4bits_maps_nibble (s : State) (v : Nat) (hd : Function.Injective s.data_pins)
    (hlt : ∀ i, s.data_pins i < 8) (hen : ∀ i, s.data_pins i ≠ s.enable_pin) :
    (∀ i : Fin 4, bitAt (setDataBits s.data_pins s.bit_map v) (s.data_pins i) = bitAt v i.val)
    ∧ (∀ k, k < 8 → (∀ i, s.data_pins i ≠ k) →
        bitAt (setDataBits s.data_pins s.bit_map v) k = bitAt s.bit_map k)
    ∧ write4bits s (v % 16) = write4bits s v
    ∧ write4bits s v
        = pulseEnable (shift_out { s with bit_map := setDataBits s.data_pins s.bit_map v })
    ∧ (write4bits s v).actsSince s
        = Act.push (setDataBits s.data_pins s.bit_map v)
            :: pulseEnableActs s.enable_pin (setDataBits s.data_pins s.bit_map v)
    ∧ (write4bits s v).since s
        = render (Act.push (setDataBits s.data_pins s.bit_map v)
            :: pulseEnableActs s.enable_pin (setDataBits s.data_pins s.bit_map v))
    ∧ (∀ i : Fin 4, bitAt (write4bits s v).bit_map (s.data_pins i) = bitAt v i.val)
    ∧ (∀ k, k < 8 → (∀ i, s.data_pins i ≠ k) → k ≠ s.enable_pin →
        bitAt (write4bits s v).bit_map k = bitAt s.bit_map k) := by
  obtain ⟨hb1, hb2⟩ := setDataBits_bits s.data_pins s.bit_map v hd hlt
  refine ⟨hb1, hb2, ?_, rfl, ?_, ?_, ?_, ?_⟩
  · unfold write4bits
    simp only [setDataBits_mod16]
  · unfold State.actsSince
    rw [write4bits_acts, List.drop_left]
    rfl
  · exact since_append _ _ _ (write4bits_trace s v)
  · intro i
    rw [write4bits_bit_map]
    simp only [bitAt_bitWrite, hlt i, (hen i).symm, if_true, if_false]
    exact hb1 i
  · intro k hk hne hke
    rw [write4bits_bit_map]
    simp only [bitAt_bitWrite, hk, Ne.symm hke, if_true, if_false]
    exact hb2 k hk hne

/-- C15, witness: the default pin map, shadow `0x02`, value `0xA5`: the
register is pushed once with `0x52` (nibble 5 on bits 4..7, bit 1 kept). -/
theorem write4bits_maps_nibble_witness :
    setDataBits (State.sample 0x02).data_pins 0x02 0xA5 = 0x52
    ∧ (write4bits (State.sample 0x02) 0xA5).actsSince (State.sample 0x02)
        = Act.push (setDataBits (State.sample 0x02).data_pins 0x02 0xA5)
            :: pulseEnableActs 3 (setDataBits (State.sample 0x02).data_pins 0x02 0xA5) :=
  ⟨by decide!,
    (write4bits_maps_nibble (State.sample 0x02) 0xA5
      (by intro i j h; fin_cases i <;> fin_cases j <;> first | rfl | exact absurd h (by decide))
      (by intro i; fin_cases i <;> decide)
      (by intro i; fin_cases i <;> decide)).2.2.2.2.1⟩

theorem or_lt_256 (a b : Nat) (ha : a < 256) (hb : b < 256) : a ||| b < 256 :=
  Nat.or_lt_two_pow (n := 8) ha hb

theorem flagSet_or (c f : Nat) (hc : c < 256) (hf : f < 256) :
    FlagSet c ((c ||| f) % 256) f true := by
  intro i
  rw [Nat.mod_eq_of_lt (or_lt_256 c f hc hf), Nat.testBit_or]
  by_cases h : f.testBit i <;> simp [h]

theorem andNot8_lt (c f : Nat) : andNot8 c f < 256 :=
  Nat.mod_lt _ (by norm_num)

theorem flagSet_andNot8 (c f : Nat) (hc : c < 256) (hf : f < 256) :
    FlagSet c (andNot8 c f) f false := by
  intro i
  have h256 : (256 : Nat) = 2 ^ 8 := by norm_num
  have hF : (0xFFFF : Nat) = 2 ^ 16 - 1 := by norm_num
  unfold andNot8
  rw [h256, hF]
  simp only [Nat.testBit_mod_two_pow, Nat.testBit_and, Nat.testBit_xor,
    Nat.testBit_two_pow_sub_one]
  by_cases h8 : i < 8
  · have h16 : i < 16 := by omega
    by_cases h : f.testBit i <;> simp [h8, h16, h]
  · have hci := testBit_of_lt_256 c i hc h8
    by_cases h : f.testBit i <;> simp [h8, h, hci]

theorem controlToggle_of (s : State) (x flag : Nat) (b : Bool) (hx : x < 256)
    (hf : FlagSet s.displaycontrol x flag b) :
    ControlToggle s
      (command { s with displaycontrol := x } ((LCD_DISPLAYCONTROL ||| x) % 256)) flag b := by
  refine ⟨hf, rfl, rfl, ?_⟩
  show _ = command { s with displaycontrol := x } (LCD_DISPLAYCONTROL ||| x)
  rw [Nat.mod_eq_of_lt (or_lt_256 _ _ (by decide) hx)]

theorem entryToggle_of (s : State) (x flag : Nat) (b : Bool) (hx : x < 256)
    (hf : FlagSet s.displaymode x flag b) :
    EntryToggle s
      (command { s with displaymode := x } ((LCD_ENTRYMODESET ||| x) % 256)) flag b := by
  refine ⟨hf, rfl, rfl, ?_⟩
  show _ = command { s with displaymode := x } (LCD_ENTRYMODESET ||| x)
  rw [Nat.mod_eq_of_lt (or_lt_256 _ _ (by decide) hx)]

/-- C16.  Each flag toggle changes only its own flag bit and re-sends the
matching mode-set command.  For every state with 8-bit flag words:
`display`/`noDisplay`, `cursor`/`noCursor`, `blink`/`noBlink` set or clear
exactly the display-on, cursor-on or blink-on bit of the display-control
flags, leave the entry-mode and function flags unchanged and issue exactly
one command `LCD_DISPLAYCONTROL | flags`; `leftToRight`/`rightToLeft` and
`autoscroll`/`noAutoscroll` set or clear exactly the entry-left or autoscroll
bit of the entry-mode flags, leave the display-control and function flags
unchanged and issue exactly one command `LCD_ENTRYMODESET | flags`. -/
theorem flag_toggles (s : State) (hc : s.displaycontrol < 256) (hm : s.displaymode < 256) :
    ControlToggle s (display s) LCD_DISPLAYON true
    ∧ ControlToggle s (noDisplay s) LCD_DISPLAYON false
    ∧ ControlToggle s (cursor s) LCD_CURSORON true
    ∧ ControlToggle s (noCursor s) LCD_CURSORON false
    ∧ ControlToggle s (blink s) LCD_BLINKON true
    ∧ ControlToggle s (noBlink s) LCD_BLINKON false
    ∧ EntryToggle s (leftToRight s) LCD_ENTRYLEFT true
    ∧ EntryToggle s (rightToLeft s) LCD_ENTRYLEFT false
    ∧ EntryToggle s (autoscroll s) LCD_ENTRYSHIFTINCREMENT true
    ∧ EntryToggle s (noAutoscroll s) LCD_ENTRYSHIFTINCREMENT false := by
  refine ⟨?_, ?_, ?_, ?_, ?_, ?_, ?_, ?_, ?_, ?_⟩
  · exact controlToggle_of s _ LCD_DISPLAYON true (Nat.mod_lt _ (by norm_num))
      (flagSet_or s.displaycontrol LCD_DISPLAYON hc (by decide))
  · exact controlToggle_of s _ LCD_DISPLAYON false (andNot8_lt _ _)
      (flagSet_andNot8 s.displaycontrol LCD_DISPLAYON hc (by decide))
  · exact controlToggle_of s _ LCD_CURSORON true (Nat.mod_lt _ (by norm_num))
      (flagSet_or s.displaycontrol LCD_CURSORON hc (by decide))
  · exact controlToggle_of s _ LCD_CURSORON false (andNot8_lt _ _)
      (flagSet_andNot8 s.displaycontrol LCD_CURSORON hc (by decide))
  · exact controlToggle_of s _ LCD_BLINKON true (Nat.mod_lt _ (by norm_num))
      (flagSet_or s.displaycontrol LCD_BLINKON hc (by decide))
  · exact controlToggle_of s _ LCD_BLINKON false (andNot8_lt _ _)
      (flagSet_andNot8 s.displaycontrol LCD_BLINKON hc (by decide))
  · exact entryToggle_of s _ LCD_ENTRYLEFT true (Nat.mod_lt _ (by norm_num))
      (flagSet_or s.displaymode LCD_ENTRYLEFT hm (by decide))
  · exact entryToggle_of s _ LCD_ENTRYLEFT false (andNot8_lt _ _)
      (flagSet_andNot8 s.displaymode LCD_ENTRYLEFT hm (by decide))
  · exact entryToggle_of s _ LCD_ENTRYSHIFTINCREMENT true (Nat.mod_lt _ (by norm_num))
      (flagSet_or s.displaymode LCD_ENTRYSHIFTINCREMENT hm (by decide))
  · exact entryToggle_of s _ LCD_ENTRYSHIFTINCREMENT false (andNot8_lt _ _)
      (flagSet_andNot8 s.displaymode LCD_ENTRYSHIFTINCREMENT hm (by decide))

/-- C16, witness: the flags the constructor leaves (display-control `0x04`,
entry mode `0x02`); `cursor()` gives display-control `0x06` and `noDisplay()`
gives `0x00`. -/
theorem flag_toggles_witness :
    ControlToggle (State.sample 0x60) (cursor (State.sample 0x60)) LCD_CURSORON true
    ∧ (cursor (State.sample 0x60)).displaycontrol = 0x06
    ∧ (noDisplay (State.sample 0x60)).displaycontrol = 0x00
    ∧ (autoscroll (State.sample 0x60)).displaymode = 0x03 :=
  ⟨(flag_toggles (State.sample 0x60) (by decide) (by decide)).2.2.1, by decide!, by decide!,
    by decide!⟩

theorem sendAll_displayfunction (s : State) (bs : List (Nat × Nat)) :
    (sendAll s bs).displayfunction = s.displayfunction := by
  induction bs generalizing s with
  | nil => rfl
  | cons x xs ih => exact (ih (send s x.1 x.2)).trans rfl

theorem Op.apply_displayfunction (op : Op) (s t : State) (h : op.apply s = some t) :
    t.displayfunction = s.displayfunction
      ∨ ∃ cols lines dotsize, op = Op.begin cols lines dotsize := by
  cases op with
  | begin cols lines dotsize => exact Or.inr ⟨cols, lines, dotsize, rfl⟩
  | setCursor col row =>
    simp only [Op.apply, Driver.setCursor] at h
    split at h
    · exact absurd h (by simp)
    · have ht : t = _ := (Option.some.inj h).symm
      rw [ht]; exact Or.inl rfl
  | createChar location charmap =>
    have ht : t = Driver.createChar s location charmap := by simpa [Op.apply] using h.symm
    rw [ht, createChar_eq_sendAll]
    exact Or.inl (sendAll_displayfunction s _)
  | command value =>
    have ht : t = Driver.command s value := by simpa [Op.apply] using h.symm
    rw [ht]; exact Or.inl rfl
  | write value =>
    have ht : t = (Driver.write s value).1 := by simpa [Op.apply] using h.symm
    rw [ht]; exact Or.inl rfl
  | clear =>
    have ht : t = Driver.clear s := by simpa [Op.apply] using h.symm
    rw [ht]; exact Or.inl rfl
  | home =>
    have ht : t = Driver.home s := by simpa [Op.apply] using h.symm
    rw [ht]; exact Or.inl rfl
  | noDisplay =>
    have ht : t = Driver.noDisplay s := by simpa [Op.apply] using h.symm
    rw [ht]; exact Or.inl rfl
  | display =>
    have ht : t = Driver.display s := by simpa [Op.apply] using h.symm
    rw [ht]; exact Or.inl rfl
  | noCursor =>
    have ht : t = Driver.noCursor s := by simpa [Op.apply] using h.symm
    rw [ht]; exact Or.inl rfl
  | cursor =>
    have ht : t = Driver.cursor s := by simpa [Op.apply] using h.symm
    rw [ht]; exact Or.inl rfl
  | noBlink =>
    have ht : t = Driver.noBlink s := by simpa [Op.apply] using h.symm
    rw [ht]; exact Or.inl rfl
  | blink =>
    have ht : t = Driver.blink s := by simpa [Op.apply] using h.symm
    rw [ht]; exact Or.inl rfl
  | scrollDisplayLeft =>
    have ht : t = Driver.scrollDisplayLeft s := by simpa [Op.apply] using h.symm
    rw [ht]; exact Or.inl rfl
  | scrollDisplayRight =>
    have ht : t = Driver.scrollDisplayRight s := by simpa [Op.apply] using h.symm
    rw [ht]; exact Or.inl rfl
  | leftToRight =>
    have ht : t = Driver.leftToRight s := by simpa [Op.apply] using h.symm
    rw [ht]; exact Or.inl rfl
  | rightToLeft =>
    have ht : t = Driver.rightToLeft s := by simpa [Op.apply] using h.symm
    rw [ht]; exact Or.inl rfl
  | autoscroll =>
    have ht : t = Driver.autoscroll s := by simpa [Op.apply] using h.symm
    rw [ht]; exact Or.inl rfl
  | noAutoscroll =>
    have ht : t = Driver.noAutoscroll s := by simpa [Op.apply] using h.symm
    rw [ht]; exact Or.inl rfl
  | ledOn =>
    have ht : t = Driver.ledOn s := by simpa [Op.apply] using h.symm
    rw [ht]; exact Or.inl rfl
  | ledOff =>
    have ht : t = Driver.ledOff s := by simpa [Op.apply] using h.symm
    rw [ht]; exact Or.inl rfl

theorem beginPrologue_flags (s : State) (lines dotsize : Nat)
    (h : s.displayfunction = 0 ∨ s.displayfunction = 4 ∨ s.displayfunction = 8
      ∨ s.displayfunction = 12) :
    (beginPrologue s lines dotsize).displayfunction = 0
      ∨ (beginPrologue s lines dotsize).displayfunction = 4
      ∨ (beginPrologue s lines dotsize).displayfunction = 8
      ∨ (beginPrologue s lines dotsize).displayfunction = 12 := by
  rw [beginPrologue_displayfunction]
  by_cases h1 : lines > 1 <;> by_cases h2 : dotsize ≠ 0 ∧ lines = 1
  · rw [if_pos h2, if_pos h1]
    rcases h with h | h | h | h <;> rw [h] <;> decide
  · rw [if_neg h2, if_pos h1]
    rcases h with h | h | h | h <;> rw [h] <;> decide
  · rw [if_pos h2, if_neg h1]
    rcases h with h | h | h | h <;> rw [h] <;> decide
  · rw [if_neg h2, if_neg h1]
    rcases h with h | h | h | h <;> rw [h] <;> decide

theorem reachable_flags (s : State) (h : Reachable s) :
    s.displayfunction = 0 ∨ s.displayfunction = 4 ∨ s.displayfunction = 8
      ∨ s.displayfunction = 12 := by
  induction h with
  | construct data clock latch => exact Or.inl (constructed_ready data clock latch).2.2.1
  | step op a b _ _ hab ih =>
    rcases Op.apply_displayfunction op a b hab with e | ⟨cols, lines, dotsize, e⟩
    · rw [e]; exact ih
    · subst e
      have hb : b = Driver.begin a cols lines dotsize := by simpa [Op.apply] using hab.symm
      rw [hb, begin_displayfunction]
      exact beginPrologue_flags a lines dotsize ih

/-- C17.  In every state reached by constructing the driver and calling any
sequence of public operations, the 8-bit-mode flag of the function flags is
clear; so in every `begin` call made there the test at line 88 finds the flag
clear and `begin` runs the nibble negotiation (three `0x3` nibbles, then
`0x2`), never the 8-bit branch. -/
theorem interface_width_fixed (s : State) (h : Reachable s) :
    s.displayfunction &&& LCD_8BITMODE = 0
    ∧ ∀ cols lines dotsize,
        (beginPrologue s lines dotsize).displayfunction &&& LCD_8BITMODE = 0
        ∧ begin s cols lines dotsize
            = beginEpilogue (beginNibbles (beginPrologue s lines dotsize)) := by
  have hf := reachable_flags s h
  have h16 : ∀ x : Nat, (x = 0 ∨ x = 4 ∨ x = 8 ∨ x = 12) → x &&& LCD_8BITMODE = 0 := by
    intro x hx
    rcases hx with e | e | e | e <;> rw [e] <;> decide
  refine ⟨h16 _ hf, ?_⟩
  intro cols lines dotsize
  have hp := h16 _ (beginPrologue_flags s lines dotsize hf)
  exact ⟨hp, by rw [begin_eq_parts, if_pos hp]⟩

/-- C17, witness: construct the driver and call `begin(16, 2, 0)`; the
function flags are `0x08`, and a further `begin(20, 4, 1)` negotiates by
nibbles. -/
theorem interface_width_fixed_witness :
    Reachable (begin (LiquidCrypstal 0 0 0) 16 2 0)
    ∧ (begin (LiquidCrypstal 0 0 0) 16 2 0).displayfunction &&& LCD_8BITMODE = 0
    ∧ begin (begin (LiquidCrypstal 0 0 0) 16 2 0) 20 4 1
        = beginEpilogue (beginNibbles (beginPrologue (begin (LiquidCrypstal 0 0 0) 16 2 0) 4 1)) :=
  have hr : Reachable (begin (LiquidCrypstal 0 0 0) 16 2 0) :=
    Reachable.step (Op.begin 16 2 0) (LiquidCrypstal 0 0 0) _ (Reachable.construct 0 0 0)
      ⟨by decide, by decide, by decide⟩ rfl
  ⟨hr, (interface_width_fixed _ hr).1, ((interface_width_fixed _ hr).2 20 4 1).2⟩

theorem setCursorRow_lt_four_unless (s : State) (row : Nat) (h1 : 1 ≤ s.numlines)
    (h4 : s.numlines ≤ 4) :
    setCursorRow s row < 4 ∨ (s.numlines = 4 ∧ row = 4) := by
  unfold setCursorRow
  by_cases h : row > s.numlines
  · rw [if_pos h]
    left
    omega
  · rw [if_neg h]
    omega

/-- C18, failing input.  Construct the driver and call `begin(20, 4, 0)`:
four lines are configured.  `setCursor(0, 4)` passes the test
`row > _numlines` unclamped, so the index used to read the 4-entry table
`row_offsets` is 4, which is not less than 4: the read is out of bounds. -/
theorem setCursor_four_lines_row_four_out_of_bounds :
    (begin (LiquidCrypstal 0 0 0) 20 4 0).numlines = 4
    ∧ setCursorRow (begin (LiquidCrypstal 0 0 0) 20 4 0) 4 = 4
    ∧ ¬ setCursorRow (begin (LiquidCrypstal 0 0 0) 20 4 0) 4 < 4
    ∧ row_offsets.length = 4
    ∧ row_offsets[setCursorRow (begin (LiquidCrypstal 0 0 0) 20 4 0) 4]? = none
    ∧ Op.apply (Op.setCursor 0 4) (begin (LiquidCrypstal 0 0 0) 20 4 0) = none := by
  have h4 : setCursorRow (begin (LiquidCrypstal 0 0 0) 20 4 0) 4 = 4 := by decide!
  refine ⟨by decide!, h4, by rw [h4]; decide, rfl, by rw [h4]; rfl, ?_⟩
  show setCursor (begin (LiquidCrypstal 0 0 0) 20 4 0) 0 4 = none
  unfold setCursor
  rw [h4]
  rfl

/-- C19.  With the default pin map, for every byte, every mode and every
starting shadow value, `send` leaves bit 2 (the LED) and bit 0 (unmapped) as
they were, in every byte it pushes and in the shadow value it leaves; and
every operation that reaches the display only through `send` (`command`,
`write`, `clear`, `home`, `setCursor`, the flag toggles, the scrolls,
`createChar`) likewise leaves bit 2 as it was in every byte it pushes and in
its final shadow value. -/
theorem send_keeps_led_bit (s : State) (hp : DefaultPinMap s) :
    (∀ value mode,
      (∀ p ∈ pushed ((send s value mode).since s),
          bitAt p 2 = bitAt s.bit_map 2 ∧ bitAt p 0 = bitAt s.bit_map 0)
      ∧ bitAt (send s value mode).bit_map 2 = bitAt s.bit_map 2
      ∧ bitAt (send s value mode).bit_map 0 = bitAt s.bit_map 0)
    ∧ (∀ (op : Op) (t : State), op.viaSend → op.apply s = some t →
        (∀ p ∈ pushed (t.since s), bitAt p 2 = bitAt s.bit_map 2)
        ∧ bitAt t.bit_map 2 = bitAt s.bit_map 2) := by
  obtain ⟨u2, u0⟩ := DefaultPinMap.untouched s hp
  constructor
  · intro value mode
    have k2 := ((Keeps.keeps_refl 2 s).keeps_send u2 value mode).pushed_bits
    have k0 := ((Keeps.keeps_refl 0 s).keeps_send u0 value mode).pushed_bits
    exact ⟨fun p hp' => ⟨k2.1 p hp', k0.1 p hp'⟩, k2.2, k0.2⟩
  · intro op t hv hop
    exact (Op.apply_keeps 2 op s t hv u2 hop).pushed_bits

/-- C19, witness: the ready shadow value with the LED bit set (`0x64`);
`write(0x41)` pushes only bytes with bit 2 set. -/
theorem send_keeps_led_bit_witness :
    bitAt 0x64 2 = 1
    ∧ (∀ p ∈ pushed ((send (State.sample 0x64) 0x41 HIGH).since (State.sample 0x64)),
        bitAt p 2 = 1 ∧ bitAt p 0 = 0)
    ∧ bitAt (send (State.sample 0x64) 0x41 HIGH).bit_map 2 = 1 :=
  ⟨by decide,
    ((send_keeps_led_bit (State.sample 0x64) ⟨rfl, rfl, rfl, rfl, rfl, rfl, rfl⟩).1 0x41 HIGH).1,
    ((send_keeps_led_bit (State.sample 0x64) ⟨rfl, rfl, rfl, rfl, rfl, rfl, rfl⟩).1 0x41 HIGH).2.1⟩

end Driver
